/-
Verification of the OmniScale content-adaptive upscaling core and the
frontend setting manager of this repository.

The shader source (`scale`, `is_different`, `rgb_to_hq_colospace`) is
embedded shallowly over the real numbers: colors are 4-tuples of reals,
GLSL `mix`/arithmetic is per-channel linear arithmetic, `texture` is
nearest sampling with clamp-to-edge addressing, and `length` is the
Euclidean norm via `Real.sqrt`.  Branches on real comparisons use the
(noncomputable) order decidability of the reals, mirroring the pointwise
float branches of the source.
-/
import Mathlib

noncomputable section

namespace OmniScale

/-- RGBA color with real-valued channels, the shallow embedding of `vec4`. -/
structure Color where
  r : ℝ
  g : ℝ
  b : ℝ
  a : ℝ

/-- Per-channel addition of colors (GLSL `+` on `vec4`). -/
def cadd (x y : Color) : Color := ⟨x.r + y.r, x.g + y.g, x.b + y.b, x.a + y.a⟩

/-- Per-channel scaling of a color (GLSL scalar `*` on `vec4`). -/
def csmul (t : ℝ) (x : Color) : Color := ⟨t * x.r, t * x.g, t * x.b, t * x.a⟩

/-- GLSL `mix(x, y, t) = x * (1 - t) + y * t`, per channel. -/
def mix (x y : Color) (t : ℝ) : Color := cadd (csmul (1 - t) x) (csmul t y)

theorem mix_self (x : Color) (t : ℝ) : mix x x t = x := by
  unfold mix cadd csmul
  cases x
  simp only [Color.mk.injEq]
  refine ⟨by ring, by ring, by ring, by ring⟩

theorem mix_zero (x y : Color) : mix x y 0 = x := by
  unfold mix cadd csmul
  cases x; cases y
  simp only [Color.mk.injEq]
  refine ⟨by ring, by ring, by ring, by ring⟩

theorem mix_one (x y : Color) : mix x y 1 = y := by
  unfold mix cadd csmul
  cases x; cases y
  simp only [Color.mk.injEq]
  refine ⟨by ring, by ring, by ring, by ring⟩

/-- The HQx colorspace conversion of the source
(`rgb_to_hq_colospace`, name kept verbatim from the source). -/
def rgb_to_hq_colospace (c : Color) : ℝ × ℝ × ℝ :=
  (0.250 * c.r + 0.250 * c.g + 0.250 * c.b,
   0.250 * c.r - 0.000 * c.g - 0.250 * c.b,
   -0.125 * c.r + 0.250 * c.g - 0.125 * c.b)

/-- The color-difference classifier of the source: componentwise absolute
difference in the HQ colorspace against the three fixed thresholds. -/
def is_different (x y : Color) : Prop :=
  0.125 < |(rgb_to_hq_colospace x).1 - (rgb_to_hq_colospace y).1| ∨
  0.027 < |(rgb_to_hq_colospace x).2.1 - (rgb_to_hq_colospace y).2.1| ∨
  0.031 < |(rgb_to_hq_colospace x).2.2 - (rgb_to_hq_colospace y).2.2|

noncomputable instance (x y : Color) : Decidable (is_different x y) := by
  unfold is_different
  infer_instance

theorem is_different_symm {x y : Color} (h : is_different x y) : is_different y x := by
  unfold is_different at h ⊢
  rwa [abs_sub_comm, abs_sub_comm ((rgb_to_hq_colospace y).2.1),
    abs_sub_comm ((rgb_to_hq_colospace y).2.2)]

theorem not_is_different_self (x : Color) : ¬ is_different x x := by
  unfold is_different
  push_neg
  norm_num

/-- Mapping into the perceptual space, written following the spec's words:
first axis `0.25r + 0.25g + 0.25b`, second `0.25r - 0.25b`,
third `-0.125r + 0.25g - 0.125b`. -/
def specPerceptual (c : Color) : ℝ × ℝ × ℝ :=
  (0.25 * c.r + 0.25 * c.g + 0.25 * c.b,
   0.25 * c.r - 0.25 * c.b,
   -0.125 * c.r + 0.25 * c.g - 0.125 * c.b)

/-- The classifier as the spec describes it: some axis of the per-axis
absolute difference strictly exceeds its threshold
(0.125, 0.027, 0.031 respectively). -/
def specDifferent (x y : Color) : Prop :=
  0.125 < |(specPerceptual x).1 - (specPerceptual y).1| ∨
  0.027 < |(specPerceptual x).2.1 - (specPerceptual y).2.1| ∨
  0.031 < |(specPerceptual x).2.2 - (specPerceptual y).2.2|

theorem hq_colospace_eq_specPerceptual (c : Color) :
    rgb_to_hq_colospace c = specPerceptual c := by
  unfold rgb_to_hq_colospace specPerceptual
  rw [Prod.mk.injEq, Prod.mk.injEq]
  refine ⟨by ring, by ring, by ring⟩

/-- C3: `is_different` holds iff some axis of the perceptual-space
absolute difference strictly exceeds its fixed threshold, with the axes
and thresholds stated by the spec. -/
theorem is_different_iff_specDifferent (x y : Color) :
    is_different x y ↔ specDifferent x y := by
  unfold is_different specDifferent
  rw [hq_colospace_eq_specPerceptual, hq_colospace_eq_specPerceptual]

/-- GLSL `length` of a 2-vector. -/
def vlen (v : ℝ × ℝ) : ℝ := Real.sqrt (v.1 ^ 2 + v.2 ^ 2)

/-- The per-branch band width `length(1.0 / (uResolution / textureDimensions))`
of the source, with `uResolution = targetSize.xy` and
`textureDimensions = sourceSize.xy`. -/
def pixelSize (srcSize tgtSize : ℝ × ℝ) : ℝ :=
  vlen (1 / (tgtSize.1 / srcSize.1), 1 / (tgtSize.2 / srcSize.2))

/-- The interpolation factor of the distance-based blends: the source writes
it as `(dist + pixel_size / 2 - mid) / pixel_size` with `mid` being `0`,
`0.5` or `1` depending on the branch. -/
def aaFactor (dist mid ps : ℝ) : ℝ := (dist - mid + ps / 2) / ps

/-- The corner color `r` computed identically in four branches of `scale`:
either the diagonal blend of `w1` and `w3`, or the fixed-weight
`3/8, 1/4, 3/8` staircase kernel. -/
def cornerR (w0 w1 w3 : Color) (p : ℝ × ℝ) : Color :=
  if is_different w0 w1 ∨ is_different w0 w3 then
    mix w1 w3 (p.2 - p.1 + 0.5)
  else
    mix (mix (cadd (csmul 0.375 w1) (cadd (csmul 0.25 w0) (csmul 0.375 w3)))
      w3 (p.2 * 2)) w1 (p.1 * 2)

/-- The 8-bit neighborhood pattern: bit `i` is set iff the corresponding
neighbor is classified different from the center `w4` (bits in the order
`w0 w1 w2 w3 w5 w6 w7 w8` of the source). -/
def basePattern (w0 w1 w2 w3 w4 w5 w6 w7 w8 : Color) : ℕ :=
  (if is_different w0 w4 then 1 else 0) +
  (if is_different w1 w4 then 2 else 0) +
  (if is_different w2 w4 then 4 else 0) +
  (if is_different w3 w4 then 8 else 0) +
  (if is_different w5 w4 then 16 else 0) +
  (if is_different w6 w4 then 32 else 0) +
  (if is_different w7 w4 then 64 else 0) +
  (if is_different w8 w4 then 128 else 0)

theorem basePattern_lt_256 (w0 w1 w2 w3 w4 w5 w6 w7 w8 : Color) :
    basePattern w0 w1 w2 w3 w4 w5 w6 w7 w8 < 256 := by
  unfold basePattern
  have h : ∀ (c : Prop) [Decidable c] (k : ℕ), (if c then k else 0) ≤ k := by
    intro c _ k; split <;> omega
  have h0 := h (is_different w0 w4) 1
  have h1 := h (is_different w1 w4) 2
  have h2 := h (is_different w2 w4) 4
  have h3 := h (is_different w3 w4) 8
  have h5 := h (is_different w5 w4) 16
  have h6 := h (is_different w6 w4) 32
  have h7 := h (is_different w7 w4) 64
  have h8 := h (is_different w8 w4) 128
  omega

/-- Population count of the bits of the 15-bit pattern; the source computes
it with a shift loop (`while (pattern != 0) ...`), which for the 15-bit
patterns produced by `scale` is bit-counting over bits `0..14`. -/
def popcount (n : ℕ) : ℕ := ((List.range 15).filter (fun i => n.testBit i)).length

/-- The later 2:1-slope distance rule guarded by
`P(0xbf,0x37) || P(0xdb,0x13)` (the same two pattern predicates as the
first rule of the cascade). -/
def rule2to1H (w1 w3 w4 : Color) (p : ℝ × ℝ) (srcSize tgtSize : ℝ × ℝ) : Color :=
  if p.1 - 2 * p.2 > pixelSize srcSize tgtSize * Real.sqrt 5 / 2 then w1
  else if p.1 - 2 * p.2 < -(pixelSize srcSize tgtSize * Real.sqrt 5 / 2) then
    mix w3 w4 (p.1 + 0.5)
  else
    mix (mix w3 w4 (p.1 + 0.5)) w1
      (aaFactor (p.1 - 2 * p.2) 0 (pixelSize srcSize tgtSize * Real.sqrt 5))

/-- The 2:1-slope distance rule guarded by `P(0xdb,0x49) || P(0xef,0x6d)`;
following the source, the inner blend factor uses `p.x + 0.5`. -/
def rule2to1V (w1 w3 w4 : Color) (p : ℝ × ℝ) (srcSize tgtSize : ℝ × ℝ) : Color :=
  if p.2 - 2 * p.1 > pixelSize srcSize tgtSize * Real.sqrt 5 / 2 then w3
  else if p.2 - 2 * p.1 < -(pixelSize srcSize tgtSize * Real.sqrt 5 / 2) then
    mix w1 w4 (p.1 + 0.5)
  else
    mix (mix w1 w4 (p.1 + 0.5)) w3
      (aaFactor (p.2 - 2 * p.1) 0 (pixelSize srcSize tgtSize * Real.sqrt 5))

/-- The ordered rule cascade of `scale`, from the computed `pattern` and
the gathered samples: `w0..w8` are the 3x3 block, `x0..x6` the extended
diagonal ring (only consulted by the final diagonal disambiguator). -/
def omniRules (pattern : ℕ) (w0 w1 w2 w3 w4 w5 w6 w7 w8 : Color)
    (x0 x1 x2 x3 x4 x5 x6 : Color) (p : ℝ × ℝ) (srcSize tgtSize : ℝ × ℝ) : Color :=
  if (pattern &&& 0xbf = 0x37 ∨ pattern &&& 0xdb = 0x13) ∧ is_different w1 w5 then
    mix w4 w3 (0.5 - p.1)
  else if (pattern &&& 0xdb = 0x49 ∨ pattern &&& 0xef = 0x6d) ∧ is_different w7 w3 then
    mix w4 w1 (0.5 - p.2)
  else if (pattern &&& 0x0b = 0x0b ∨ pattern &&& 0xfe = 0x4a ∨ pattern &&& 0xfe = 0x1a) ∧
      is_different w3 w1 then
    w4
  else if (pattern &&& 0x6f = 0x2a ∨ pattern &&& 0x5b = 0x0a ∨ pattern &&& 0xbf = 0x3a ∨
      pattern &&& 0xdf = 0x5a ∨ pattern &&& 0x9f = 0x8a ∨ pattern &&& 0xcf = 0x8a ∨
      pattern &&& 0xef = 0x4e ∨ pattern &&& 0x3f = 0x0e ∨ pattern &&& 0xfb = 0x5a ∨
      pattern &&& 0xbb = 0x8a ∨ pattern &&& 0x7f = 0x5a ∨ pattern &&& 0xaf = 0x8a ∨
      pattern &&& 0xeb = 0x8a) ∧ is_different w3 w1 then
    mix w4 (mix w4 w0 (0.5 - p.1)) (0.5 - p.2)
  else if pattern &&& 0x0b = 0x08 then
    mix (mix (cadd (csmul 0.375 w0) (cadd (csmul 0.25 w1) (csmul 0.375 w4)))
      (cadd (csmul 0.5 w4) (csmul 0.5 w1)) (p.1 * 2)) w4 (p.2 * 2)
  else if pattern &&& 0x0b = 0x02 then
    mix (mix (cadd (csmul 0.375 w0) (cadd (csmul 0.25 w3) (csmul 0.375 w4)))
      (cadd (csmul 0.5 w4) (csmul 0.5 w3)) (p.2 * 2)) w4 (p.1 * 2)
  else if pattern &&& 0x2f = 0x2f then
    if vlen (p.1 - 0.5, p.2 - 0.5) < 0.5 - pixelSize srcSize tgtSize / 2 then w4
    else if vlen (p.1 - 0.5, p.2 - 0.5) > 0.5 + pixelSize srcSize tgtSize / 2 then
      cornerR w0 w1 w3 p
    else
      mix w4 (cornerR w0 w1 w3 p)
        (aaFactor (vlen (p.1 - 0.5, p.2 - 0.5)) 0.5 (pixelSize srcSize tgtSize))
  else if pattern &&& 0xbf = 0x37 ∨ pattern &&& 0xdb = 0x13 then
    rule2to1H w1 w3 w4 p srcSize tgtSize
  else if pattern &&& 0xdb = 0x49 ∨ pattern &&& 0xef = 0x6d then
    rule2to1V w1 w3 w4 p srcSize tgtSize
  else if pattern &&& 0xbf = 0x8f ∨ pattern &&& 0x7e = 0x0e then
    if p.1 + 2 * p.2 > 1 + pixelSize srcSize tgtSize * Real.sqrt 5 / 2 then w4
    else if p.1 + 2 * p.2 < 1 - pixelSize srcSize tgtSize * Real.sqrt 5 / 2 then
      cornerR w0 w1 w3 p
    else
      mix (cornerR w0 w1 w3 p) w4
        (aaFactor (p.1 + 2 * p.2) 1 (pixelSize srcSize tgtSize * Real.sqrt 5))
  else if pattern &&& 0x7e = 0x2a ∨ pattern &&& 0xef = 0xab then
    if p.2 + 2 * p.1 > 1 + pixelSize srcSize tgtSize * Real.sqrt 5 / 2 then w4
    else if p.2 + 2 * p.1 < 1 - pixelSize srcSize tgtSize * Real.sqrt 5 / 2 then
      cornerR w0 w1 w3 p
    else
      mix (cornerR w0 w1 w3 p) w4
        (aaFactor (p.2 + 2 * p.1) 1 (pixelSize srcSize tgtSize * Real.sqrt 5))
  else if pattern &&& 0x1b = 0x03 ∨ pattern &&& 0x4f = 0x43 ∨ pattern &&& 0x8b = 0x83 ∨
      pattern &&& 0x6b = 0x43 then
    mix w4 w3 (0.5 - p.1)
  else if pattern &&& 0x4b = 0x09 ∨ pattern &&& 0x8b = 0x89 ∨ pattern &&& 0x1f = 0x19 ∨
      pattern &&& 0x3b = 0x19 then
    mix w4 w1 (0.5 - p.2)
  else if pattern &&& 0xfb = 0x6a ∨ pattern &&& 0x6f = 0x6e ∨ pattern &&& 0x3f = 0x3e ∨
      pattern &&& 0xfb = 0xfa ∨ pattern &&& 0xdf = 0xde ∨ pattern &&& 0xdf = 0x1e then
    mix w4 w0 ((1 - p.1 - p.2) / 2)
  else if pattern &&& 0x4f = 0x4b ∨ pattern &&& 0x9f = 0x1b ∨ pattern &&& 0x2f = 0x0b ∨
      pattern &&& 0xbe = 0x0a ∨ pattern &&& 0xee = 0x0a ∨ pattern &&& 0x7e = 0x0a ∨
      pattern &&& 0xeb = 0x4b ∨ pattern &&& 0x3b = 0x1b then
    if p.1 + p.2 > 0.5 + pixelSize srcSize tgtSize / 2 then w4
    else if p.1 + p.2 < 0.5 - pixelSize srcSize tgtSize / 2 then cornerR w0 w1 w3 p
    else
      mix (cornerR w0 w1 w3 p) w4 (aaFactor (p.1 + p.2) 0.5 (pixelSize srcSize tgtSize))
  else if pattern &&& 0x0b = 0x01 then
    mix (mix w4 w3 (0.5 - p.1)) (mix w1 (csmul 0.5 (cadd w1 w3)) (0.5 - p.1)) (0.5 - p.2)
  else if pattern &&& 0x0b = 0x00 then
    mix (mix w4 w3 (0.5 - p.1)) (mix w1 w0 (0.5 - p.1)) (0.5 - p.2)
  else if p.1 + p.2 > 0.5 + pixelSize srcSize tgtSize / 2 then w4
  else if (popcount (pattern |||
      ((if is_different x0 w4 then 256 else 0) |||
       (if is_different x1 w4 then 512 else 0) |||
       (if is_different x2 w4 then 1024 else 0) |||
       (if is_different x3 w4 then 2048 else 0) |||
       (if is_different x4 w4 then 4096 else 0) |||
       (if is_different x5 w4 then 8192 else 0) |||
       (if is_different x6 w4 then 16384 else 0))) : ℤ) - 7 ≤ 0 then
    if p.1 + p.2 < 0.5 - pixelSize srcSize tgtSize / 2 then
      mix w1 w3 (p.2 - p.1 + 0.5)
    else
      mix (mix w1 w3 (p.2 - p.1 + 0.5)) w4
        (aaFactor (p.1 + p.2) 0.5 (pixelSize srcSize tgtSize))
  else w4

/-- The cascade applied to the pattern computed from the gathered samples. -/
def omniEngine (w0 w1 w2 w3 w4 w5 w6 w7 w8 : Color)
    (x0 x1 x2 x3 x4 x5 x6 : Color) (p : ℝ × ℝ) (srcSize tgtSize : ℝ × ℝ) : Color :=
  omniRules (basePattern w0 w1 w2 w3 w4 w5 w6 w7 w8) w0 w1 w2 w3 w4 w5 w6 w7 w8
    x0 x1 x2 x3 x4 x5 x6 p srcSize tgtSize

/-- A read-only source image: fixed extent plus a texel grid addressed by
column and row. -/
structure Image where
  width : ℕ
  height : ℕ
  pix : ℕ → ℕ → Color

/-- Clamp-to-edge index resolution: an integer texel index is clamped to
`[0, n - 1]`. -/
def clampIdx (n : ℕ) (i : ℤ) : ℕ := (max 0 (min i ((n : ℤ) - 1))).toNat

/-- Nearest sampling with clamp-to-edge addressing: `texture(image, uv)`
reads the texel whose index is the floor of the coordinate scaled by the
image extent. -/
def sample (img : Image) (uv : ℝ × ℝ) : Color :=
  img.pix (clampIdx img.width ⌊uv.1 * img.width⌋) (clampIdx img.height ⌊uv.2 * img.height⌋)

/-- Quadrant normalization of one fractional component: a component above
`0.5` is remapped to `1` minus itself. -/
def normFrac (f : ℝ) : ℝ := if f > 0.5 then 1 - f else f

/-- The signed x sampling offset of `scale`: one texel width, negated when
the raw fractional x exceeds `0.5` (quadrant flip). -/
def offX (img : Image) (coord : ℝ × ℝ) : ℝ :=
  if Int.fract (coord.1 * img.width) > 0.5 then -(1 / (img.width : ℝ))
  else 1 / (img.width : ℝ)

/-- The signed y sampling offset of `scale`, symmetric to `offX`. -/
def offY (img : Image) (coord : ℝ × ℝ) : ℝ :=
  if Int.fract (coord.2 * img.height) > 0.5 then -(1 / (img.height : ℝ))
  else 1 / (img.height : ℝ)

/-- The scale function of the source: computes the fractional position,
normalizes to the top-left quadrant by flipping the offset signs, gathers
the 3x3 block and the extended ring in the flipped offset directions, and
runs the rule cascade.  `srcSize` is the image extent
(`textureDimensions`), `tgtSize` the output extent (`uResolution`). -/
def scale (img : Image) (tgtSize : ℝ × ℝ) (coord : ℝ × ℝ) : Color :=
  omniRules
    (basePattern
      (sample img (coord.1 - offX img coord, coord.2 - offY img coord))
      (sample img (coord.1, coord.2 - offY img coord))
      (sample img (coord.1 + offX img coord, coord.2 - offY img coord))
      (sample img (coord.1 - offX img coord, coord.2))
      (sample img coord)
      (sample img (coord.1 + offX img coord, coord.2))
      (sample img (coord.1 - offX img coord, coord.2 + offY img coord))
      (sample img (coord.1, coord.2 + offY img coord))
      (sample img (coord.1 + offX img coord, coord.2 + offY img coord)))
    (sample img (coord.1 - offX img coord, coord.2 - offY img coord))
    (sample img (coord.1, coord.2 - offY img coord))
    (sample img (coord.1 + offX img coord, coord.2 - offY img coord))
    (sample img (coord.1 - offX img coord, coord.2))
    (sample img coord)
    (sample img (coord.1 + offX img coord, coord.2))
    (sample img (coord.1 - offX img coord, coord.2 + offY img coord))
    (sample img (coord.1, coord.2 + offY img coord))
    (sample img (coord.1 + offX img coord, coord.2 + offY img coord))
    (sample img (coord.1 - 2 * offX img coord, coord.2 - 2 * offY img coord))
    (sample img (coord.1 - offX img coord, coord.2 - 2 * offY img coord))
    (sample img (coord.1, coord.2 - 2 * offY img coord))
    (sample img (coord.1 + offX img coord, coord.2 - 2 * offY img coord))
    (sample img (coord.1 - 2 * offX img coord, coord.2 - offY img coord))
    (sample img (coord.1 - 2 * offX img coord, coord.2))
    (sample img (coord.1 - 2 * offX img coord, coord.2 + offY img coord))
    (normFrac (Int.fract (coord.1 * img.width)), normFrac (Int.fract (coord.2 * img.height)))
    ((img.width : ℝ), (img.height : ℝ)) tgtSize

/-- Pure black, used as a concrete sample color. -/
def cBlack : Color := ⟨0, 0, 0, 1⟩

/-- Pure white, used as a concrete sample color. -/
def cWhite : Color := ⟨1, 1, 1, 1⟩

/-- Pure red, used as a concrete sample color. -/
def cRed : Color := ⟨1, 0, 0, 1⟩

theorem diff_white_black : is_different cWhite cBlack := by
  unfold is_different rgb_to_hq_colospace cWhite cBlack
  left
  norm_num [abs_of_nonneg]

theorem diff_black_white : is_different cBlack cWhite :=
  is_different_symm diff_white_black

theorem diff_red_black : is_different cRed cBlack := by
  unfold is_different rgb_to_hq_colospace cRed cBlack
  left
  norm_num [abs_of_nonneg]

theorem diff_white_red : is_different cWhite cRed := by
  unfold is_different rgb_to_hq_colospace cWhite cRed
  left
  norm_num [abs_of_nonneg]

theorem cWhite_ne_cBlack : cWhite ≠ cBlack := by
  unfold cWhite cBlack
  intro h
  have := congrArg Color.r h
  norm_num at this

/-- C5: after quadrant normalization the fractional component lies in
`[0, 0.5]`; a raw component above `0.5` is remapped to one minus itself
with the offset sign flipped, and otherwise both are unchanged. -/
theorem quadrant_normalization (u : ℝ) (img : Image) (coord : ℝ × ℝ) :
    0 ≤ normFrac (Int.fract u) ∧ normFrac (Int.fract u) ≤ 0.5 ∧
    (Int.fract u > 0.5 → normFrac (Int.fract u) = 1 - Int.fract u) ∧
    (¬ Int.fract u > 0.5 → normFrac (Int.fract u) = Int.fract u) ∧
    (Int.fract (coord.1 * img.width) > 0.5 →
      offX img coord = -(1 / (img.width : ℝ))) ∧
    (¬ Int.fract (coord.1 * img.width) > 0.5 →
      offX img coord = 1 / (img.width : ℝ)) ∧
    (Int.fract (coord.2 * img.height) > 0.5 →
      offY img coord = -(1 / (img.height : ℝ))) ∧
    (¬ Int.fract (coord.2 * img.height) > 0.5 →
      offY img coord = 1 / (img.height : ℝ)) := by
  have hnn := Int.fract_nonneg u
  have hlt := Int.fract_lt_one u
  refine ⟨?_, ?_, fun h => ?_, fun h => ?_, fun h => ?_, fun h => ?_, fun h => ?_, fun h => ?_⟩
  · unfold normFrac; split <;> [linarith; linarith]
  · unfold normFrac; split <;> [linarith; linarith]
  · unfold normFrac; rw [if_pos h]
  · unfold normFrac; rw [if_neg h]
  · unfold offX; rw [if_pos h]
  · unfold offX; rw [if_neg h]
  · unfold offY; rw [if_pos h]
  · unfold offY; rw [if_neg h]

theorem quadrant_normalization_witness :
    normFrac (Int.fract (0.7 : ℝ)) = 1 - Int.fract (0.7 : ℝ) ∧
    0 ≤ normFrac (Int.fract (0.7 : ℝ)) ∧ normFrac (Int.fract (0.7 : ℝ)) ≤ 0.5 ∧
    offX ⟨1, 1, fun _ _ => cBlack⟩ (0.7, 0.2) = -(1 / ((1 : ℕ) : ℝ)) := by
  have hf : Int.fract (0.7 : ℝ) = 0.7 := Int.fract_eq_self.mpr (by norm_num)
  have h := quadrant_normalization (0.7 : ℝ) ⟨1, 1, fun _ _ => cBlack⟩ (0.7, 0.2)
  refine ⟨h.2.2.1 (by rw [hf]; norm_num), h.1, h.2.1, ?_⟩
  have h5 := h.2.2.2.2.1
  simp only [Image.width] at h5 ⊢
  refine h5 ?_
  have : (0.7 : ℝ) * ((1 : ℕ) : ℝ) = 0.7 := by norm_num
  rw [this, hf]
  norm_num

/-- The anti-aliasing half-band width as the spec words it: the Euclidean
length of the component-wise reciprocal of the target-to-source extent
ratio vector. -/
def specBandWidth (srcSize tgtSize : ℝ × ℝ) : ℝ :=
  Real.sqrt ((srcSize.1 / tgtSize.1) ^ 2 + (srcSize.2 / tgtSize.2) ^ 2)

/-- C8: the band width used by the distance-based blends equals the length
of the reciprocal target-to-source ratio vector, scaled by the square root
of 5 exactly in the 2:1-slope branches and left unscaled otherwise. -/
theorem bandWidth_eq_spec (srcSize tgtSize : ℝ × ℝ) :
    pixelSize srcSize tgtSize = specBandWidth srcSize tgtSize ∧
    pixelSize srcSize tgtSize * Real.sqrt 5 =
      specBandWidth srcSize tgtSize * Real.sqrt 5 := by
  have h : pixelSize srcSize tgtSize = specBandWidth srcSize tgtSize := by
    unfold pixelSize vlen specBandWidth
    rw [one_div_div, one_div_div]
  exact ⟨h, by rw [h]⟩

/-- C7: with positive extents, every distance-based blend of the engine and
the disambiguator has a positive band width; strictly inside the band the
interpolation factor lies in `[0, 1]`, and at the two band boundaries the
blended color equals the flat color of the corresponding side, so the
result is continuous across the boundary. -/
theorem aa_band_continuity (srcSize tgtSize : ℝ × ℝ)
    (hs1 : 0 < srcSize.1) (hs2 : 0 < srcSize.2)
    (ht1 : 0 < tgtSize.1) (ht2 : 0 < tgtSize.2)
    (k : ℝ) (hk : k = 1 ∨ k = Real.sqrt 5)
    (r w : Color) (mid dist : ℝ) (hmid : mid = 0 ∨ mid = 0.5 ∨ mid = 1) :
    0 < pixelSize srcSize tgtSize * k ∧
    (mid - pixelSize srcSize tgtSize * k / 2 < dist →
      dist < mid + pixelSize srcSize tgtSize * k / 2 →
      0 ≤ aaFactor dist mid (pixelSize srcSize tgtSize * k) ∧
      aaFactor dist mid (pixelSize srcSize tgtSize * k) ≤ 1) ∧
    mix r w (aaFactor (mid - pixelSize srcSize tgtSize * k / 2) mid
      (pixelSize srcSize tgtSize * k)) = r ∧
    mix r w (aaFactor (mid + pixelSize srcSize tgtSize * k / 2) mid
      (pixelSize srcSize tgtSize * k)) = w := by
  have hps : 0 < pixelSize srcSize tgtSize := by
    unfold pixelSize vlen
    refine Real.sqrt_pos.mpr ?_
    have h1 : 0 < 1 / (tgtSize.1 / srcSize.1) := by positivity
    positivity
  have hk0 : 0 < k := by
    rcases hk with h | h
    · rw [h]; norm_num
    · rw [h]; exact Real.sqrt_pos.mpr (by norm_num)
  have hpk : 0 < pixelSize srcSize tgtSize * k := mul_pos hps hk0
  refine ⟨hpk, fun hlo hhi => ⟨?_, ?_⟩, ?_, ?_⟩
  · unfold aaFactor
    apply div_nonneg _ hpk.le
    linarith
  · unfold aaFactor
    rw [div_le_one hpk]
    linarith
  · unfold aaFactor
    have : mid - pixelSize srcSize tgtSize * k / 2 - mid +
        pixelSize srcSize tgtSize * k / 2 = 0 := by ring
    rw [this, zero_div, mix_zero]
  · unfold aaFactor
    have : mid + pixelSize srcSize tgtSize * k / 2 - mid +
        pixelSize srcSize tgtSize * k / 2 = pixelSize srcSize tgtSize * k := by ring
    rw [this, div_self hpk.ne', mix_one]

theorem aa_band_continuity_witness :
    0 < pixelSize (1, 1) (1, 1) * 1 ∧
    (0 ≤ aaFactor 0 0 (pixelSize (1, 1) (1, 1) * 1) ∧
      aaFactor 0 0 (pixelSize (1, 1) (1, 1) * 1) ≤ 1) ∧
    mix cBlack cWhite (aaFactor (0 - pixelSize (1, 1) (1, 1) * 1 / 2) 0
      (pixelSize (1, 1) (1, 1) * 1)) = cBlack := by
  have h := aa_band_continuity (1, 1) (1, 1) (by norm_num) (by norm_num)
    (by norm_num) (by norm_num) 1 (Or.inl rfl) cBlack cWhite 0 0 (Or.inl rfl)
  exact ⟨h.1, h.2.1 (by linarith [h.1]) (by linarith [h.1]), h.2.2.1⟩

theorem not_and_left {A B : Prop} (h : ¬ A) : ¬ (A ∧ B) := fun hc => h hc.1

/-- Pattern `0x00` falls through the whole cascade to the final
axis-pattern rule `P(0x0b,0x00)`; with the relevant neighbors equal to the
center the blend collapses to the center color. -/
theorem omniRules_flat (w0 w1 w2 w3 w4 w5 w6 w7 w8 x0 x1 x2 x3 x4 x5 x6 : Color)
    (p : ℝ × ℝ) (srcSize tgtSize : ℝ × ℝ)
    (hw0 : w0 = w4) (hw1 : w1 = w4) (hw3 : w3 = w4) :
    omniRules 0 w0 w1 w2 w3 w4 w5 w6 w7 w8 x0 x1 x2 x3 x4 x5 x6 p srcSize tgtSize = w4 := by
  unfold omniRules
  rw [if_neg (not_and_left (by decide)), if_neg (not_and_left (by decide)),
    if_neg (not_and_left (by decide)), if_neg (not_and_left (by decide)),
    if_neg (by decide), if_neg (by decide), if_neg (by decide), if_neg (by decide),
    if_neg (by decide), if_neg (by decide), if_neg (by decide), if_neg (by decide),
    if_neg (by decide), if_neg (by decide), if_neg (by decide), if_neg (by decide),
    if_pos (by decide)]
  rw [hw0, hw1, hw3]
  simp only [mix_self]

/-- Pattern `0x07` (the three neighbors above differ) selects the
axis-pattern rule `P(0x1b,0x03)`, a horizontal blend toward `w3`. -/
theorem omniRules_topEdge (w0 w1 w2 w3 w4 w5 w6 w7 w8 x0 x1 x2 x3 x4 x5 x6 : Color)
    (p : ℝ × ℝ) (srcSize tgtSize : ℝ × ℝ) :
    omniRules 7 w0 w1 w2 w3 w4 w5 w6 w7 w8 x0 x1 x2 x3 x4 x5 x6 p srcSize tgtSize =
      mix w4 w3 (0.5 - p.1) := by
  unfold omniRules
  rw [if_neg (not_and_left (by decide)), if_neg (not_and_left (by decide)),
    if_neg (not_and_left (by decide)), if_neg (not_and_left (by decide)),
    if_neg (by decide), if_neg (by decide), if_neg (by decide), if_neg (by decide),
    if_neg (by decide), if_neg (by decide), if_neg (by decide),
    if_pos (by decide)]

/-- Pattern `0xe0` (the three neighbors below differ) falls through to the
final axis-pattern rule `P(0x0b,0x00)`. -/
theorem omniRules_bottomEdge (w0 w1 w2 w3 w4 w5 w6 w7 w8 x0 x1 x2 x3 x4 x5 x6 : Color)
    (p : ℝ × ℝ) (srcSize tgtSize : ℝ × ℝ)
    (hw0 : w0 = w4) (hw1 : w1 = w4) (hw3 : w3 = w4) :
    omniRules 224 w0 w1 w2 w3 w4 w5 w6 w7 w8 x0 x1 x2 x3 x4 x5 x6 p srcSize tgtSize = w4 := by
  unfold omniRules
  rw [if_neg (not_and_left (by decide)), if_neg (not_and_left (by decide)),
    if_neg (not_and_left (by decide)), if_neg (not_and_left (by decide)),
    if_neg (by decide), if_neg (by decide), if_neg (by decide), if_neg (by decide),
    if_neg (by decide), if_neg (by decide), if_neg (by decide), if_neg (by decide),
    if_neg (by decide), if_neg (by decide), if_neg (by decide), if_neg (by decide),
    if_pos (by decide)]
  rw [hw0, hw1, hw3]
  simp only [mix_self]

/-- Pattern `0x29` (`w0`, `w3`, `w6` differ: a vertical edge on the left)
selects the axis-pattern rule `P(0x4b,0x09)`, a vertical blend toward `w1`. -/
theorem omniRules_leftEdge (w0 w1 w2 w3 w4 w5 w6 w7 w8 x0 x1 x2 x3 x4 x5 x6 : Color)
    (p : ℝ × ℝ) (srcSize tgtSize : ℝ × ℝ) :
    omniRules 41 w0 w1 w2 w3 w4 w5 w6 w7 w8 x0 x1 x2 x3 x4 x5 x6 p srcSize tgtSize =
      mix w4 w1 (0.5 - p.2) := by
  unfold omniRules
  rw [if_neg (not_and_left (by decide)), if_neg (not_and_left (by decide)),
    if_neg (not_and_left (by decide)), if_neg (not_and_left (by decide)),
    if_neg (by decide), if_neg (by decide), if_neg (by decide), if_neg (by decide),
    if_neg (by decide), if_neg (by decide), if_neg (by decide), if_neg (by decide),
    if_pos (by decide)]

/-- All eight neighbors equal to the center force the base pattern to 0. -/
theorem basePattern_self (c : Color) :
    basePattern c c c c c c c c c = 0 := by
  unfold basePattern
  simp only [if_neg (not_is_different_self c)]

/-- A neighborhood whose top row is `B` over an `A` center and `A`
remainder has base pattern `0x07`. -/
theorem basePattern_topRow (A B : Color) (hd : is_different B A) :
    basePattern B B B A A A A A A = 7 := by
  unfold basePattern
  rw [if_pos hd, if_pos hd, if_pos hd]
  simp only [if_neg (not_is_different_self A)]

/-- A neighborhood whose bottom row is `B` under an `A` center and `A`
remainder has base pattern `0xe0`. -/
theorem basePattern_bottomRow (A B : Color) (hd : is_different B A) :
    basePattern A A A A A A B B B = 224 := by
  unfold basePattern
  rw [if_pos hd, if_pos hd, if_pos hd]
  simp only [if_neg (not_is_different_self A)]

/-- A neighborhood whose left column is `B` beside an `A` center and `A`
remainder has base pattern `0x29`. -/
theorem basePattern_leftCol (A B : Color) (hd : is_different B A) :
    basePattern B A A B A A B A A = 41 := by
  unfold basePattern
  rw [if_pos hd, if_pos hd, if_pos hd]
  simp only [if_neg (not_is_different_self A)]

/-- A source image filled with a single color. -/
def constImage (c : Color) (W H : ℕ) : Image := ⟨W, H, fun _ _ => c⟩

/-- C4: with all eight gathered neighbors equal to the center color the
base pattern is 0 and the engine returns exactly the center color for
every sub-pixel position and every extent pair; consequently scaling a
single-color image yields that color at every output coordinate. -/
theorem flat_region_uniform_noop :
    (∀ (c x0 x1 x2 x3 x4 x5 x6 : Color) (p : ℝ × ℝ) (srcSize tgtSize : ℝ × ℝ),
      basePattern c c c c c c c c c = 0 ∧
      omniEngine c c c c c c c c c x0 x1 x2 x3 x4 x5 x6 p srcSize tgtSize = c) ∧
    (∀ (c : Color) (W H : ℕ) (tgtSize : ℝ × ℝ) (coord : ℝ × ℝ),
      scale (constImage c W H) tgtSize coord = c) := by
  constructor
  · intro c x0 x1 x2 x3 x4 x5 x6 p srcSize tgtSize
    refine ⟨basePattern_self c, ?_⟩
    unfold omniEngine
    rw [basePattern_self c]
    exact omniRules_flat c c c c c c c c c x0 x1 x2 x3 x4 x5 x6 p srcSize tgtSize rfl rfl rfl
  · intro c W H tgtSize coord
    have hs : ∀ uv : ℝ × ℝ, sample (constImage c W H) uv = c := fun _ => rfl
    unfold scale
    simp only [hs]
    rw [basePattern_self c]
    exact omniRules_flat c c c c c c c c c c c c c c c c _ _ _ rfl rfl rfl

/-- Any pattern admitted by the guards `P(0xbf,0x37)` or `P(0xdb,0x13)` is
rejected by every other guard strictly between the first rule and the
2:1-slope rule at the same two predicates. -/
theorem patternScan : ∀ n : ℕ, n < 256 →
    (n &&& 0xbf = 0x37 ∨ n &&& 0xdb = 0x13) →
    ¬ (n &&& 0xdb = 0x49 ∨ n &&& 0xef = 0x6d) ∧
    ¬ (n &&& 0x0b = 0x0b ∨ n &&& 0xfe = 0x4a ∨ n &&& 0xfe = 0x1a) ∧
    ¬ (n &&& 0x6f = 0x2a ∨ n &&& 0x5b = 0x0a ∨ n &&& 0xbf = 0x3a ∨ n &&& 0xdf = 0x5a ∨
       n &&& 0x9f = 0x8a ∨ n &&& 0xcf = 0x8a ∨ n &&& 0xef = 0x4e ∨ n &&& 0x3f = 0x0e ∨
       n &&& 0xfb = 0x5a ∨ n &&& 0xbb = 0x8a ∨ n &&& 0x7f = 0x5a ∨ n &&& 0xaf = 0x8a ∨
       n &&& 0xeb = 0x8a) ∧
    ¬ (n &&& 0x0b = 0x08) ∧ ¬ (n &&& 0x0b = 0x02) ∧ ¬ (n &&& 0x2f = 0x2f) := by
  have hall : ∀ m : Fin 256,
      (m.val &&& 0xbf = 0x37 ∨ m.val &&& 0xdb = 0x13) →
      ¬ (m.val &&& 0xdb = 0x49 ∨ m.val &&& 0xef = 0x6d) ∧
      ¬ (m.val &&& 0x0b = 0x0b ∨ m.val &&& 0xfe = 0x4a ∨ m.val &&& 0xfe = 0x1a) ∧
      ¬ (m.val &&& 0x6f = 0x2a ∨ m.val &&& 0x5b = 0x0a ∨ m.val &&& 0xbf = 0x3a ∨
         m.val &&& 0xdf = 0x5a ∨ m.val &&& 0x9f = 0x8a ∨ m.val &&& 0xcf = 0x8a ∨
         m.val &&& 0xef = 0x4e ∨ m.val &&& 0x3f = 0x0e ∨ m.val &&& 0xfb = 0x5a ∨
         m.val &&& 0xbb = 0x8a ∨ m.val &&& 0x7f = 0x5a ∨ m.val &&& 0xaf = 0x8a ∨
         m.val &&& 0xeb = 0x8a) ∧
      ¬ (m.val &&& 0x0b = 0x08) ∧ ¬ (m.val &&& 0x0b = 0x02) ∧
      ¬ (m.val &&& 0x2f = 0x2f) := by
    set_option maxRecDepth 4096 in decide
  intro n hn h
  exact hall ⟨n, hn⟩ h

/-- C6: under the pattern predicates `P(0xbf,0x37)` and `P(0xdb,0x13)`,
the auxiliary test `is_different w1 w5` selects the first rule's
axis-aligned blend `mix(w4, w3, 0.5 - p.x)`, and exactly when that test
fails the cascade falls through to the later distance-based 2:1-slope rule
with the same two pattern predicates: the first matching predicate wins. -/
theorem first_match_tiebreak :
    (∀ (w0 w1 w2 w3 w4 w5 w6 w7 w8 x0 x1 x2 x3 x4 x5 x6 : Color) (p : ℝ × ℝ)
      (srcSize tgtSize : ℝ × ℝ),
      (basePattern w0 w1 w2 w3 w4 w5 w6 w7 w8 &&& 0xbf = 0x37 ∨
        basePattern w0 w1 w2 w3 w4 w5 w6 w7 w8 &&& 0xdb = 0x13) →
      is_different w1 w5 →
      omniEngine w0 w1 w2 w3 w4 w5 w6 w7 w8 x0 x1 x2 x3 x4 x5 x6 p srcSize tgtSize =
        mix w4 w3 (0.5 - p.1)) ∧
    (∀ (w0 w1 w2 w3 w4 w5 w6 w7 w8 x0 x1 x2 x3 x4 x5 x6 : Color) (p : ℝ × ℝ)
      (srcSize tgtSize : ℝ × ℝ),
      (basePattern w0 w1 w2 w3 w4 w5 w6 w7 w8 &&& 0xbf = 0x37 ∨
        basePattern w0 w1 w2 w3 w4 w5 w6 w7 w8 &&& 0xdb = 0x13) →
      ¬ is_different w1 w5 →
      omniEngine w0 w1 w2 w3 w4 w5 w6 w7 w8 x0 x1 x2 x3 x4 x5 x6 p srcSize tgtSize =
        rule2to1H w1 w3 w4 p srcSize tgtSize) := by
  constructor
  · intro w0 w1 w2 w3 w4 w5 w6 w7 w8 x0 x1 x2 x3 x4 x5 x6 p srcSize tgtSize hpat haux
    unfold omniEngine omniRules
    rw [if_pos (And.intro hpat haux)]
  · intro w0 w1 w2 w3 w4 w5 w6 w7 w8 x0 x1 x2 x3 x4 x5 x6 p srcSize tgtSize hpat haux
    have hd := patternScan (basePattern w0 w1 w2 w3 w4 w5 w6 w7 w8)
      (basePattern_lt_256 w0 w1 w2 w3 w4 w5 w6 w7 w8) hpat
    unfold omniEngine omniRules
    rw [if_neg (fun hc => haux hc.2), if_neg (not_and_left hd.1),
      if_neg (not_and_left hd.2.1), if_neg (not_and_left hd.2.2.1),
      if_neg hd.2.2.2.1, if_neg hd.2.2.2.2.1, if_neg hd.2.2.2.2.2,
      if_pos hpat]

theorem basePattern_tiebreakA :
    basePattern cWhite cWhite cBlack cBlack cBlack cRed cBlack cBlack cBlack = 19 := by
  unfold basePattern
  rw [if_pos diff_white_black, if_pos diff_white_black,
    if_neg (not_is_different_self cBlack), if_neg (not_is_different_self cBlack),
    if_pos diff_red_black, if_neg (not_is_different_self cBlack),
    if_neg (not_is_different_self cBlack), if_neg (not_is_different_self cBlack)]

theorem basePattern_tiebreakB :
    basePattern cWhite cWhite cBlack cBlack cBlack cWhite cBlack cBlack cBlack = 19 := by
  unfold basePattern
  rw [if_pos diff_white_black, if_pos diff_white_black,
    if_neg (not_is_different_self cBlack), if_neg (not_is_different_self cBlack),
    if_pos diff_white_black, if_neg (not_is_different_self cBlack),
    if_neg (not_is_different_self cBlack), if_neg (not_is_different_self cBlack)]

theorem first_match_tiebreak_witness :
    omniEngine cWhite cWhite cBlack cBlack cBlack cRed cBlack cBlack cBlack
      cBlack cBlack cBlack cBlack cBlack cBlack cBlack
      (0.3, 0.2) (3, 3) (12, 12) = mix cBlack cBlack (0.5 - ((0.3 : ℝ), (0.2 : ℝ)).1) ∧
    omniEngine cWhite cWhite cBlack cBlack cBlack cWhite cBlack cBlack cBlack
      cBlack cBlack cBlack cBlack cBlack cBlack cBlack
      (0.3, 0.2) (3, 3) (12, 12) =
      rule2to1H cWhite cBlack cBlack ((0.3 : ℝ), (0.2 : ℝ)) (3, 3) (12, 12) := by
  constructor
  · exact first_match_tiebreak.1 cWhite cWhite cBlack cBlack cBlack cRed cBlack cBlack
      cBlack cBlack cBlack cBlack cBlack cBlack cBlack cBlack (0.3, 0.2) (3, 3) (12, 12)
      (Or.inr (by rw [basePattern_tiebreakA]; decide)) diff_white_red
  · exact first_match_tiebreak.2 cWhite cWhite cBlack cBlack cBlack cWhite cBlack cBlack
      cBlack cBlack cBlack cBlack cBlack cBlack cBlack cBlack (0.3, 0.2) (3, 3) (12, 12)
      (Or.inr (by rw [basePattern_tiebreakB]; decide)) (not_is_different_self cWhite)

theorem floor_eval (n : ℤ) {x : ℝ} (h1 : (n : ℝ) ≤ x) (h2 : x < (n : ℝ) + 1) :
    ⌊x⌋ = n := by
  rw [Int.floor_eq_iff]
  exact ⟨h1, h2⟩

theorem fract_val (n : ℤ) {x v : ℝ} (hx : x - n = v) (h1 : (n : ℝ) ≤ x)
    (h2 : x < (n : ℝ) + 1) : Int.fract x = v := by
  rw [Int.fract, floor_eval n h1 h2, hx]

/-- The Scenario A source: a 3x3 image with top row `A` and the two lower
rows `B`. -/
def sceneA (A B : Color) : Image := ⟨3, 3, fun _ j => if j = 0 then A else B⟩

theorem sceneA_width (A B : Color) : (sceneA A B).width = 3 := rfl

theorem sceneA_height (A B : Color) : (sceneA A B).height = 3 := rfl

theorem sample_sceneA (A B : Color) (X Y : ℝ) :
    sample (sceneA A B) (X, Y) =
      if clampIdx 3 ⌊Y * ((3 : ℕ) : ℝ)⌋ = 0 then A else B := rfl

theorem sceneA_row0 (A B : Color) (hd : is_different A B) (tgt : ℝ × ℝ) (cx : ℝ) :
    scale (sceneA A B) tgt (cx, (1 : ℝ) / 24) = A := by
  have hfr : Int.fract ((1 : ℝ) / 24 * ((3 : ℕ) : ℝ)) = 1 / 8 :=
    fract_val 0 (by push_cast; ring) (by push_cast; norm_num) (by push_cast; norm_num)
  have hflip : ¬ Int.fract ((1 : ℝ) / 24 * ((3 : ℕ) : ℝ)) > 0.5 := by
    rw [hfr]; norm_num
  have hoy : offY (sceneA A B) (cx, (1 : ℝ) / 24) = 1 / ((3 : ℕ) : ℝ) := by
    unfold offY
    dsimp only
    rw [sceneA_height, if_neg hflip]
  have hT : clampIdx 3 ⌊((1 : ℝ) / 24 - 1 / ((3 : ℕ) : ℝ)) * ((3 : ℕ) : ℝ)⌋ = 0 := by
    rw [floor_eval (-1) (by push_cast; norm_num) (by push_cast; norm_num)]
    decide
  have hC : clampIdx 3 ⌊(1 : ℝ) / 24 * ((3 : ℕ) : ℝ)⌋ = 0 := by
    rw [floor_eval 0 (by push_cast; norm_num) (by push_cast; norm_num)]
    decide
  have hB : clampIdx 3 ⌊((1 : ℝ) / 24 + 1 / ((3 : ℕ) : ℝ)) * ((3 : ℕ) : ℝ)⌋ = 1 := by
    rw [floor_eval 1 (by push_cast; norm_num) (by push_cast; norm_num)]
    decide
  unfold scale
  dsimp only
  simp only [sceneA_width, sceneA_height, hoy, sample_sceneA, hT, hC, hB, reduceIte,
    Nat.one_ne_zero, ite_false]
  rw [basePattern_bottomRow A B (is_different_symm hd)]
  exact omniRules_bottomEdge _ _ _ _ _ _ _ _ _ _ _ _ _ _ _ _ _ _ _ rfl rfl rfl

theorem sceneA_row1 (A B : Color) (hd : is_different A B) (tgt : ℝ × ℝ) (cx : ℝ) :
    scale (sceneA A B) tgt (cx, (3 : ℝ) / 24) = A := by
  have hfr : Int.fract ((3 : ℝ) / 24 * ((3 : ℕ) : ℝ)) = 3 / 8 :=
    fract_val 0 (by push_cast; ring) (by push_cast; norm_num) (by push_cast; norm_num)
  have hflip : ¬ Int.fract ((3 : ℝ) / 24 * ((3 : ℕ) : ℝ)) > 0.5 := by
    rw [hfr]; norm_num
  have hoy : offY (sceneA A B) (cx, (3 : ℝ) / 24) = 1 / ((3 : ℕ) : ℝ) := by
    unfold offY
    dsimp only
    rw [sceneA_height, if_neg hflip]
  have hT : clampIdx 3 ⌊((3 : ℝ) / 24 - 1 / ((3 : ℕ) : ℝ)) * ((3 : ℕ) : ℝ)⌋ = 0 := by
    rw [floor_eval (-1) (by push_cast; norm_num) (by push_cast; norm_num)]
    decide
  have hC : clampIdx 3 ⌊(3 : ℝ) / 24 * ((3 : ℕ) : ℝ)⌋ = 0 := by
    rw [floor_eval 0 (by push_cast; norm_num) (by push_cast; norm_num)]
    decide
  have hB : clampIdx 3 ⌊((3 : ℝ) / 24 + 1 / ((3 : ℕ) : ℝ)) * ((3 : ℕ) : ℝ)⌋ = 1 := by
    rw [floor_eval (1) (by push_cast; norm_num) (by push_cast; norm_num)]
    decide
  unfold scale
  dsimp only
  simp only [sceneA_width, sceneA_height, hoy, sample_sceneA, hT, hC, hB,
    reduceIte, Nat.one_ne_zero, OfNat.ofNat_ne_zero, ite_false]
  rw [basePattern_bottomRow A B (is_different_symm hd)]
  exact omniRules_bottomEdge _ _ _ _ _ _ _ _ _ _ _ _ _ _ _ _ _ _ _ rfl rfl rfl

theorem sceneA_row2 (A B : Color) (hd : is_different A B) (tgt : ℝ × ℝ) (cx : ℝ) :
    scale (sceneA A B) tgt (cx, (5 : ℝ) / 24) = A := by
  have hfr : Int.fract ((5 : ℝ) / 24 * ((3 : ℕ) : ℝ)) = 5 / 8 :=
    fract_val 0 (by push_cast; ring) (by push_cast; norm_num) (by push_cast; norm_num)
  have hflip : Int.fract ((5 : ℝ) / 24 * ((3 : ℕ) : ℝ)) > 0.5 := by
    rw [hfr]; norm_num
  have hoy : offY (sceneA A B) (cx, (5 : ℝ) / 24) = -(1 / ((3 : ℕ) : ℝ)) := by
    unfold offY
    dsimp only
    rw [sceneA_height, if_pos hflip]
  have hT : clampIdx 3 ⌊((5 : ℝ) / 24 + 1 / ((3 : ℕ) : ℝ)) * ((3 : ℕ) : ℝ)⌋ = 1 := by
    rw [floor_eval (1) (by push_cast; norm_num) (by push_cast; norm_num)]
    decide
  have hC : clampIdx 3 ⌊(5 : ℝ) / 24 * ((3 : ℕ) : ℝ)⌋ = 0 := by
    rw [floor_eval 0 (by push_cast; norm_num) (by push_cast; norm_num)]
    decide
  have hB : clampIdx 3 ⌊((5 : ℝ) / 24 - 1 / ((3 : ℕ) : ℝ)) * ((3 : ℕ) : ℝ)⌋ = 0 := by
    rw [floor_eval (-1) (by push_cast; norm_num) (by push_cast; norm_num)]
    decide
  unfold scale
  dsimp only
  simp only [sceneA_width, sceneA_height, hoy, sub_neg_eq_add, ← sub_eq_add_neg, mul_neg, sample_sceneA, hT, hC, hB,
    reduceIte, Nat.one_ne_zero, OfNat.ofNat_ne_zero, ite_false]
  rw [basePattern_topRow A B (is_different_symm hd), omniRules_topEdge]
  exact mix_self A _

theorem sceneA_row3 (A B : Color) (hd : is_different A B) (tgt : ℝ × ℝ) (cx : ℝ) :
    scale (sceneA A B) tgt (cx, (7 : ℝ) / 24) = A := by
  have hfr : Int.fract ((7 : ℝ) / 24 * ((3 : ℕ) : ℝ)) = 7 / 8 :=
    fract_val 0 (by push_cast; ring) (by push_cast; norm_num) (by push_cast; norm_num)
  have hflip : Int.fract ((7 : ℝ) / 24 * ((3 : ℕ) : ℝ)) > 0.5 := by
    rw [hfr]; norm_num
  have hoy : offY (sceneA A B) (cx, (7 : ℝ) / 24) = -(1 / ((3 : ℕ) : ℝ)) := by
    unfold offY
    dsimp only
    rw [sceneA_height, if_pos hflip]
  have hT : clampIdx 3 ⌊((7 : ℝ) / 24 + 1 / ((3 : ℕ) : ℝ)) * ((3 : ℕ) : ℝ)⌋ = 1 := by
    rw [floor_eval (1) (by push_cast; norm_num) (by push_cast; norm_num)]
    decide
  have hC : clampIdx 3 ⌊(7 : ℝ) / 24 * ((3 : ℕ) : ℝ)⌋ = 0 := by
    rw [floor_eval 0 (by push_cast; norm_num) (by push_cast; norm_num)]
    decide
  have hB : clampIdx 3 ⌊((7 : ℝ) / 24 - 1 / ((3 : ℕ) : ℝ)) * ((3 : ℕ) : ℝ)⌋ = 0 := by
    rw [floor_eval (-1) (by push_cast; norm_num) (by push_cast; norm_num)]
    decide
  unfold scale
  dsimp only
  simp only [sceneA_width, sceneA_height, hoy, sub_neg_eq_add, ← sub_eq_add_neg, mul_neg, sample_sceneA, hT, hC, hB,
    reduceIte, Nat.one_ne_zero, OfNat.ofNat_ne_zero, ite_false]
  rw [basePattern_topRow A B (is_different_symm hd), omniRules_topEdge]
  exact mix_self A _

theorem sceneA_row4 (A B : Color) (hd : is_different A B) (tgt : ℝ × ℝ) (cx : ℝ) :
    scale (sceneA A B) tgt (cx, (9 : ℝ) / 24) = B := by
  have hfr : Int.fract ((9 : ℝ) / 24 * ((3 : ℕ) : ℝ)) = 1 / 8 :=
    fract_val 1 (by push_cast; ring) (by push_cast; norm_num) (by push_cast; norm_num)
  have hflip : ¬ Int.fract ((9 : ℝ) / 24 * ((3 : ℕ) : ℝ)) > 0.5 := by
    rw [hfr]; norm_num
  have hoy : offY (sceneA A B) (cx, (9 : ℝ) / 24) = 1 / ((3 : ℕ) : ℝ) := by
    unfold offY
    dsimp only
    rw [sceneA_height, if_neg hflip]
  have hT : clampIdx 3 ⌊((9 : ℝ) / 24 - 1 / ((3 : ℕ) : ℝ)) * ((3 : ℕ) : ℝ)⌋ = 0 := by
    rw [floor_eval (0) (by push_cast; norm_num) (by push_cast; norm_num)]
    decide
  have hC : clampIdx 3 ⌊(9 : ℝ) / 24 * ((3 : ℕ) : ℝ)⌋ = 1 := by
    rw [floor_eval 1 (by push_cast; norm_num) (by push_cast; norm_num)]
    decide
  have hB : clampIdx 3 ⌊((9 : ℝ) / 24 + 1 / ((3 : ℕ) : ℝ)) * ((3 : ℕ) : ℝ)⌋ = 2 := by
    rw [floor_eval (2) (by push_cast; norm_num) (by push_cast; norm_num)]
    decide
  unfold scale
  dsimp only
  simp only [sceneA_width, sceneA_height, hoy, sample_sceneA, hT, hC, hB,
    reduceIte, Nat.one_ne_zero, OfNat.ofNat_ne_zero, ite_false]
  rw [basePattern_topRow B A hd, omniRules_topEdge]
  exact mix_self B _

theorem sceneA_row5 (A B : Color) (hd : is_different A B) (tgt : ℝ × ℝ) (cx : ℝ) :
    scale (sceneA A B) tgt (cx, (11 : ℝ) / 24) = B := by
  have hfr : Int.fract ((11 : ℝ) / 24 * ((3 : ℕ) : ℝ)) = 3 / 8 :=
    fract_val 1 (by push_cast; ring) (by push_cast; norm_num) (by push_cast; norm_num)
  have hflip : ¬ Int.fract ((11 : ℝ) / 24 * ((3 : ℕ) : ℝ)) > 0.5 := by
    rw [hfr]; norm_num
  have hoy : offY (sceneA A B) (cx, (11 : ℝ) / 24) = 1 / ((3 : ℕ) : ℝ) := by
    unfold offY
    dsimp only
    rw [sceneA_height, if_neg hflip]
  have hT : clampIdx 3 ⌊((11 : ℝ) / 24 - 1 / ((3 : ℕ) : ℝ)) * ((3 : ℕ) : ℝ)⌋ = 0 := by
    rw [floor_eval (0) (by push_cast; norm_num) (by push_cast; norm_num)]
    decide
  have hC : clampIdx 3 ⌊(11 : ℝ) / 24 * ((3 : ℕ) : ℝ)⌋ = 1 := by
    rw [floor_eval 1 (by push_cast; norm_num) (by push_cast; norm_num)]
    decide
  have hB : clampIdx 3 ⌊((11 : ℝ) / 24 + 1 / ((3 : ℕ) : ℝ)) * ((3 : ℕ) : ℝ)⌋ = 2 := by
    rw [floor_eval (2) (by push_cast; norm_num) (by push_cast; norm_num)]
    decide
  unfold scale
  dsimp only
  simp only [sceneA_width, sceneA_height, hoy, sample_sceneA, hT, hC, hB,
    reduceIte, Nat.one_ne_zero, OfNat.ofNat_ne_zero, ite_false]
  rw [basePattern_topRow B A hd, omniRules_topEdge]
  exact mix_self B _

theorem sceneA_row6 (A B : Color) (hd : is_different A B) (tgt : ℝ × ℝ) (cx : ℝ) :
    scale (sceneA A B) tgt (cx, (13 : ℝ) / 24) = B := by
  have hfr : Int.fract ((13 : ℝ) / 24 * ((3 : ℕ) : ℝ)) = 5 / 8 :=
    fract_val 1 (by push_cast; ring) (by push_cast; norm_num) (by push_cast; norm_num)
  have hflip : Int.fract ((13 : ℝ) / 24 * ((3 : ℕ) : ℝ)) > 0.5 := by
    rw [hfr]; norm_num
  have hoy : offY (sceneA A B) (cx, (13 : ℝ) / 24) = -(1 / ((3 : ℕ) : ℝ)) := by
    unfold offY
    dsimp only
    rw [sceneA_height, if_pos hflip]
  have hT : clampIdx 3 ⌊((13 : ℝ) / 24 + 1 / ((3 : ℕ) : ℝ)) * ((3 : ℕ) : ℝ)⌋ = 2 := by
    rw [floor_eval (2) (by push_cast; norm_num) (by push_cast; norm_num)]
    decide
  have hC : clampIdx 3 ⌊(13 : ℝ) / 24 * ((3 : ℕ) : ℝ)⌋ = 1 := by
    rw [floor_eval 1 (by push_cast; norm_num) (by push_cast; norm_num)]
    decide
  have hB : clampIdx 3 ⌊((13 : ℝ) / 24 - 1 / ((3 : ℕ) : ℝ)) * ((3 : ℕ) : ℝ)⌋ = 0 := by
    rw [floor_eval (0) (by push_cast; norm_num) (by push_cast; norm_num)]
    decide
  unfold scale
  dsimp only
  simp only [sceneA_width, sceneA_height, hoy, sub_neg_eq_add, ← sub_eq_add_neg, mul_neg, sample_sceneA, hT, hC, hB,
    reduceIte, Nat.one_ne_zero, OfNat.ofNat_ne_zero, ite_false]
  rw [basePattern_bottomRow B A hd]
  exact omniRules_bottomEdge _ _ _ _ _ _ _ _ _ _ _ _ _ _ _ _ _ _ _ rfl rfl rfl

theorem sceneA_row7 (A B : Color) (hd : is_different A B) (tgt : ℝ × ℝ) (cx : ℝ) :
    scale (sceneA A B) tgt (cx, (15 : ℝ) / 24) = B := by
  have hfr : Int.fract ((15 : ℝ) / 24 * ((3 : ℕ) : ℝ)) = 7 / 8 :=
    fract_val 1 (by push_cast; ring) (by push_cast; norm_num) (by push_cast; norm_num)
  have hflip : Int.fract ((15 : ℝ) / 24 * ((3 : ℕ) : ℝ)) > 0.5 := by
    rw [hfr]; norm_num
  have hoy : offY (sceneA A B) (cx, (15 : ℝ) / 24) = -(1 / ((3 : ℕ) : ℝ)) := by
    unfold offY
    dsimp only
    rw [sceneA_height, if_pos hflip]
  have hT : clampIdx 3 ⌊((15 : ℝ) / 24 + 1 / ((3 : ℕ) : ℝ)) * ((3 : ℕ) : ℝ)⌋ = 2 := by
    rw [floor_eval (2) (by push_cast; norm_num) (by push_cast; norm_num)]
    decide
  have hC : clampIdx 3 ⌊(15 : ℝ) / 24 * ((3 : ℕ) : ℝ)⌋ = 1 := by
    rw [floor_eval 1 (by push_cast; norm_num) (by push_cast; norm_num)]
    decide
  have hB : clampIdx 3 ⌊((15 : ℝ) / 24 - 1 / ((3 : ℕ) : ℝ)) * ((3 : ℕ) : ℝ)⌋ = 0 := by
    rw [floor_eval (0) (by push_cast; norm_num) (by push_cast; norm_num)]
    decide
  unfold scale
  dsimp only
  simp only [sceneA_width, sceneA_height, hoy, sub_neg_eq_add, ← sub_eq_add_neg, mul_neg, sample_sceneA, hT, hC, hB,
    reduceIte, Nat.one_ne_zero, OfNat.ofNat_ne_zero, ite_false]
  rw [basePattern_bottomRow B A hd]
  exact omniRules_bottomEdge _ _ _ _ _ _ _ _ _ _ _ _ _ _ _ _ _ _ _ rfl rfl rfl

theorem sceneA_row8 (A B : Color) (hd : is_different A B) (tgt : ℝ × ℝ) (cx : ℝ) :
    scale (sceneA A B) tgt (cx, (17 : ℝ) / 24) = B := by
  have hfr : Int.fract ((17 : ℝ) / 24 * ((3 : ℕ) : ℝ)) = 1 / 8 :=
    fract_val 2 (by push_cast; ring) (by push_cast; norm_num) (by push_cast; norm_num)
  have hflip : ¬ Int.fract ((17 : ℝ) / 24 * ((3 : ℕ) : ℝ)) > 0.5 := by
    rw [hfr]; norm_num
  have hoy : offY (sceneA A B) (cx, (17 : ℝ) / 24) = 1 / ((3 : ℕ) : ℝ) := by
    unfold offY
    dsimp only
    rw [sceneA_height, if_neg hflip]
  have hT : clampIdx 3 ⌊((17 : ℝ) / 24 - 1 / ((3 : ℕ) : ℝ)) * ((3 : ℕ) : ℝ)⌋ = 1 := by
    rw [floor_eval (1) (by push_cast; norm_num) (by push_cast; norm_num)]
    decide
  have hC : clampIdx 3 ⌊(17 : ℝ) / 24 * ((3 : ℕ) : ℝ)⌋ = 2 := by
    rw [floor_eval 2 (by push_cast; norm_num) (by push_cast; norm_num)]
    decide
  have hB : clampIdx 3 ⌊((17 : ℝ) / 24 + 1 / ((3 : ℕ) : ℝ)) * ((3 : ℕ) : ℝ)⌋ = 2 := by
    rw [floor_eval (3) (by push_cast; norm_num) (by push_cast; norm_num)]
    decide
  unfold scale
  dsimp only
  simp only [sceneA_width, sceneA_height, hoy, sample_sceneA, hT, hC, hB,
    reduceIte, Nat.one_ne_zero, OfNat.ofNat_ne_zero, ite_false]
  rw [basePattern_self B]
  exact omniRules_flat _ _ _ _ _ _ _ _ _ _ _ _ _ _ _ _ _ _ _ rfl rfl rfl

theorem sceneA_row9 (A B : Color) (hd : is_different A B) (tgt : ℝ × ℝ) (cx : ℝ) :
    scale (sceneA A B) tgt (cx, (19 : ℝ) / 24) = B := by
  have hfr : Int.fract ((19 : ℝ) / 24 * ((3 : ℕ) : ℝ)) = 3 / 8 :=
    fract_val 2 (by push_cast; ring) (by push_cast; norm_num) (by push_cast; norm_num)
  have hflip : ¬ Int.fract ((19 : ℝ) / 24 * ((3 : ℕ) : ℝ)) > 0.5 := by
    rw [hfr]; norm_num
  have hoy : offY (sceneA A B) (cx, (19 : ℝ) / 24) = 1 / ((3 : ℕ) : ℝ) := by
    unfold offY
    dsimp only
    rw [sceneA_height, if_neg hflip]
  have hT : clampIdx 3 ⌊((19 : ℝ) / 24 - 1 / ((3 : ℕ) : ℝ)) * ((3 : ℕ) : ℝ)⌋ = 1 := by
    rw [floor_eval (1) (by push_cast; norm_num) (by push_cast; norm_num)]
    decide
  have hC : clampIdx 3 ⌊(19 : ℝ) / 24 * ((3 : ℕ) : ℝ)⌋ = 2 := by
    rw [floor_eval 2 (by push_cast; norm_num) (by push_cast; norm_num)]
    decide
  have hB : clampIdx 3 ⌊((19 : ℝ) / 24 + 1 / ((3 : ℕ) : ℝ)) * ((3 : ℕ) : ℝ)⌋ = 2 := by
    rw [floor_eval (3) (by push_cast; norm_num) (by push_cast; norm_num)]
    decide
  unfold scale
  dsimp only
  simp only [sceneA_width, sceneA_height, hoy, sample_sceneA, hT, hC, hB,
    reduceIte, Nat.one_ne_zero, OfNat.ofNat_ne_zero, ite_false]
  rw [basePattern_self B]
  exact omniRules_flat _ _ _ _ _ _ _ _ _ _ _ _ _ _ _ _ _ _ _ rfl rfl rfl

theorem sceneA_row10 (A B : Color) (hd : is_different A B) (tgt : ℝ × ℝ) (cx : ℝ) :
    scale (sceneA A B) tgt (cx, (21 : ℝ) / 24) = B := by
  have hfr : Int.fract ((21 : ℝ) / 24 * ((3 : ℕ) : ℝ)) = 5 / 8 :=
    fract_val 2 (by push_cast; ring) (by push_cast; norm_num) (by push_cast; norm_num)
  have hflip : Int.fract ((21 : ℝ) / 24 * ((3 : ℕ) : ℝ)) > 0.5 := by
    rw [hfr]; norm_num
  have hoy : offY (sceneA A B) (cx, (21 : ℝ) / 24) = -(1 / ((3 : ℕ) : ℝ)) := by
    unfold offY
    dsimp only
    rw [sceneA_height, if_pos hflip]
  have hT : clampIdx 3 ⌊((21 : ℝ) / 24 + 1 / ((3 : ℕ) : ℝ)) * ((3 : ℕ) : ℝ)⌋ = 2 := by
    rw [floor_eval (3) (by push_cast; norm_num) (by push_cast; norm_num)]
    decide
  have hC : clampIdx 3 ⌊(21 : ℝ) / 24 * ((3 : ℕ) : ℝ)⌋ = 2 := by
    rw [floor_eval 2 (by push_cast; norm_num) (by push_cast; norm_num)]
    decide
  have hB : clampIdx 3 ⌊((21 : ℝ) / 24 - 1 / ((3 : ℕ) : ℝ)) * ((3 : ℕ) : ℝ)⌋ = 1 := by
    rw [floor_eval (1) (by push_cast; norm_num) (by push_cast; norm_num)]
    decide
  unfold scale
  dsimp only
  simp only [sceneA_width, sceneA_height, hoy, sub_neg_eq_add, ← sub_eq_add_neg, mul_neg, sample_sceneA, hT, hC, hB,
    reduceIte, Nat.one_ne_zero, OfNat.ofNat_ne_zero, ite_false]
  rw [basePattern_self B]
  exact omniRules_flat _ _ _ _ _ _ _ _ _ _ _ _ _ _ _ _ _ _ _ rfl rfl rfl

theorem sceneA_row11 (A B : Color) (hd : is_different A B) (tgt : ℝ × ℝ) (cx : ℝ) :
    scale (sceneA A B) tgt (cx, (23 : ℝ) / 24) = B := by
  have hfr : Int.fract ((23 : ℝ) / 24 * ((3 : ℕ) : ℝ)) = 7 / 8 :=
    fract_val 2 (by push_cast; ring) (by push_cast; norm_num) (by push_cast; norm_num)
  have hflip : Int.fract ((23 : ℝ) / 24 * ((3 : ℕ) : ℝ)) > 0.5 := by
    rw [hfr]; norm_num
  have hoy : offY (sceneA A B) (cx, (23 : ℝ) / 24) = -(1 / ((3 : ℕ) : ℝ)) := by
    unfold offY
    dsimp only
    rw [sceneA_height, if_pos hflip]
  have hT : clampIdx 3 ⌊((23 : ℝ) / 24 + 1 / ((3 : ℕ) : ℝ)) * ((3 : ℕ) : ℝ)⌋ = 2 := by
    rw [floor_eval (3) (by push_cast; norm_num) (by push_cast; norm_num)]
    decide
  have hC : clampIdx 3 ⌊(23 : ℝ) / 24 * ((3 : ℕ) : ℝ)⌋ = 2 := by
    rw [floor_eval 2 (by push_cast; norm_num) (by push_cast; norm_num)]
    decide
  have hB : clampIdx 3 ⌊((23 : ℝ) / 24 - 1 / ((3 : ℕ) : ℝ)) * ((3 : ℕ) : ℝ)⌋ = 1 := by
    rw [floor_eval (1) (by push_cast; norm_num) (by push_cast; norm_num)]
    decide
  unfold scale
  dsimp only
  simp only [sceneA_width, sceneA_height, hoy, sub_neg_eq_add, ← sub_eq_add_neg, mul_neg, sample_sceneA, hT, hC, hB,
    reduceIte, Nat.one_ne_zero, OfNat.ofNat_ne_zero, ite_false]
  rw [basePattern_self B]
  exact omniRules_flat _ _ _ _ _ _ _ _ _ _ _ _ _ _ _ _ _ _ _ rfl rfl rfl

/-- C9: scaling the Scenario A source (top row `A`, two lower rows `B`,
`A` and `B` classified different) to 12x12 yields exactly `A` on the four
output rows above the scaled row boundary and exactly `B` on the eight
rows below it, with no intermediate blend. -/
theorem scenarioA_hard_boundary (A B : Color) (hd : is_different A B)
    (i j : ℕ) (hi : i < 12) (hj : j < 12) :
    scale (sceneA A B) (12, 12) (((i : ℝ) + 0.5) / 12, ((j : ℝ) + 0.5) / 12) =
      if j < 4 then A else B := by
  interval_cases j
  · rw [show (((0 : ℕ) : ℝ) + 0.5) / 12 = (1 : ℝ) / 24 from by push_cast; norm_num,
      if_pos (by norm_num : (0 : ℕ) < 4)]
    exact sceneA_row0 A B hd (12, 12) _
  · rw [show (((1 : ℕ) : ℝ) + 0.5) / 12 = (3 : ℝ) / 24 from by push_cast; norm_num,
      if_pos (by norm_num : (1 : ℕ) < 4)]
    exact sceneA_row1 A B hd (12, 12) _
  · rw [show (((2 : ℕ) : ℝ) + 0.5) / 12 = (5 : ℝ) / 24 from by push_cast; norm_num,
      if_pos (by norm_num : (2 : ℕ) < 4)]
    exact sceneA_row2 A B hd (12, 12) _
  · rw [show (((3 : ℕ) : ℝ) + 0.5) / 12 = (7 : ℝ) / 24 from by push_cast; norm_num,
      if_pos (by norm_num : (3 : ℕ) < 4)]
    exact sceneA_row3 A B hd (12, 12) _
  · rw [show (((4 : ℕ) : ℝ) + 0.5) / 12 = (9 : ℝ) / 24 from by push_cast; norm_num,
      if_neg (by norm_num : ¬ (4 : ℕ) < 4)]
    exact sceneA_row4 A B hd (12, 12) _
  · rw [show (((5 : ℕ) : ℝ) + 0.5) / 12 = (11 : ℝ) / 24 from by push_cast; norm_num,
      if_neg (by norm_num : ¬ (5 : ℕ) < 4)]
    exact sceneA_row5 A B hd (12, 12) _
  · rw [show (((6 : ℕ) : ℝ) + 0.5) / 12 = (13 : ℝ) / 24 from by push_cast; norm_num,
      if_neg (by norm_num : ¬ (6 : ℕ) < 4)]
    exact sceneA_row6 A B hd (12, 12) _
  · rw [show (((7 : ℕ) : ℝ) + 0.5) / 12 = (15 : ℝ) / 24 from by push_cast; norm_num,
      if_neg (by norm_num : ¬ (7 : ℕ) < 4)]
    exact sceneA_row7 A B hd (12, 12) _
  · rw [show (((8 : ℕ) : ℝ) + 0.5) / 12 = (17 : ℝ) / 24 from by push_cast; norm_num,
      if_neg (by norm_num : ¬ (8 : ℕ) < 4)]
    exact sceneA_row8 A B hd (12, 12) _
  · rw [show (((9 : ℕ) : ℝ) + 0.5) / 12 = (19 : ℝ) / 24 from by push_cast; norm_num,
      if_neg (by norm_num : ¬ (9 : ℕ) < 4)]
    exact sceneA_row9 A B hd (12, 12) _
  · rw [show (((10 : ℕ) : ℝ) + 0.5) / 12 = (21 : ℝ) / 24 from by push_cast; norm_num,
      if_neg (by norm_num : ¬ (10 : ℕ) < 4)]
    exact sceneA_row10 A B hd (12, 12) _
  · rw [show (((11 : ℕ) : ℝ) + 0.5) / 12 = (23 : ℝ) / 24 from by push_cast; norm_num,
      if_neg (by norm_num : ¬ (11 : ℕ) < 4)]
    exact sceneA_row11 A B hd (12, 12) _

theorem scenarioA_hard_boundary_witness :
    scale (sceneA cBlack cWhite) (12, 12)
      ((((0 : ℕ) : ℝ) + 0.5) / 12, (((0 : ℕ) : ℝ) + 0.5) / 12) =
      if (0 : ℕ) < 4 then cBlack else cWhite :=
  scenarioA_hard_boundary cBlack cWhite diff_black_white 0 0 (by norm_num) (by norm_num)

theorem basePattern_allDiff (w0 w1 w2 w3 w4 w5 w6 w7 w8 : Color)
    (h0 : is_different w0 w4) (h1 : is_different w1 w4) (h2 : is_different w2 w4)
    (h3 : is_different w3 w4) (h5 : is_different w5 w4) (h6 : is_different w6 w4)
    (h7 : is_different w7 w4) (h8 : is_different w8 w4) :
    basePattern w0 w1 w2 w3 w4 w5 w6 w7 w8 = 255 := by
  unfold basePattern
  rw [if_pos h0, if_pos h1, if_pos h2, if_pos h3, if_pos h5, if_pos h6, if_pos h7,
    if_pos h8]

theorem cornerR_self (c : Color) (p : ℝ × ℝ) : cornerR c c c p = c := by
  unfold cornerR
  rw [if_neg (fun hc => hc.elim (not_is_different_self c) (not_is_different_self c))]
  have hk : cadd (csmul 0.375 c) (cadd (csmul 0.25 c) (csmul 0.375 c)) = c := by
    unfold cadd csmul
    cases c
    simp only [Color.mk.injEq]
    refine ⟨by ring, by ring, by ring, by ring⟩
  rw [hk, mix_self, mix_self]

/-- C1 (amended): with base pattern `0xFF` and a fully-different extended
ring, the cascade is settled before the diagonal disambiguator: the early
`w4` rule fires when `w3` and `w1` differ, and otherwise the circular rule
`P(0x2f,0x2f)` fires, returning the unmodified center exactly on its inner
disc `dist < 0.5 - pixel_size / 2`; the bias fallback is never reached. -/
theorem scenarioB_center (w0 w1 w2 w3 w4 w5 w6 w7 w8 x0 x1 x2 x3 x4 x5 x6 : Color)
    (p : ℝ × ℝ) (srcSize tgtSize : ℝ × ℝ)
    (h0 : is_different w0 w4) (h1 : is_different w1 w4) (h2 : is_different w2 w4)
    (h3 : is_different w3 w4) (h5 : is_different w5 w4) (h6 : is_different w6 w4)
    (h7 : is_different w7 w4) (h8 : is_different w8 w4)
    (hx0 : is_different x0 w4) (hx1 : is_different x1 w4) (hx2 : is_different x2 w4)
    (hx3 : is_different x3 w4) (hx4 : is_different x4 w4) (hx5 : is_different x5 w4)
    (hx6 : is_different x6 w4)
    (hpos : is_different w3 w1 ∨
      vlen (p.1 - 0.5, p.2 - 0.5) < 0.5 - pixelSize srcSize tgtSize / 2) :
    omniEngine w0 w1 w2 w3 w4 w5 w6 w7 w8 x0 x1 x2 x3 x4 x5 x6 p srcSize tgtSize = w4 := by
  unfold omniEngine
  rw [basePattern_allDiff w0 w1 w2 w3 w4 w5 w6 w7 w8 h0 h1 h2 h3 h5 h6 h7 h8]
  unfold omniRules
  by_cases hw : is_different w3 w1
  · rw [if_neg (not_and_left (by decide)), if_neg (not_and_left (by decide)),
      if_pos (And.intro (Or.inl (by decide)) hw)]
  · have hdist : vlen (p.1 - 0.5, p.2 - 0.5) < 0.5 - pixelSize srcSize tgtSize / 2 :=
      hpos.resolve_left hw
    rw [if_neg (not_and_left (by decide)), if_neg (not_and_left (by decide)),
      if_neg (fun hc => hw hc.2), if_neg (fun hc => hw hc.2),
      if_neg (by decide), if_neg (by decide), if_pos (by decide), if_pos hdist]

theorem scenarioB_center_witness :
    omniEngine cWhite cWhite cWhite cWhite cBlack cWhite cWhite cWhite cWhite
      cWhite cWhite cWhite cWhite cWhite cWhite cWhite
      (0.5, 0.5) (3, 3) (12, 12) = cBlack := by
  refine scenarioB_center cWhite cWhite cWhite cWhite cBlack cWhite cWhite cWhite cWhite
    cWhite cWhite cWhite cWhite cWhite cWhite cWhite (0.5, 0.5) (3, 3) (12, 12)
    diff_white_black diff_white_black diff_white_black diff_white_black diff_white_black
    diff_white_black diff_white_black diff_white_black diff_white_black diff_white_black
    diff_white_black diff_white_black diff_white_black diff_white_black diff_white_black
    (Or.inr ?_)
  have hv : vlen (((0.5 : ℝ), (0.5 : ℝ)).1 - 0.5, ((0.5 : ℝ), (0.5 : ℝ)).2 - 0.5) = 0 := by
    unfold vlen
    norm_num
  have hps : pixelSize ((3 : ℝ), (3 : ℝ)) ((12 : ℝ), (12 : ℝ)) = Real.sqrt (1 / 8) := by
    unfold pixelSize vlen
    norm_num
  rw [hv, hps]
  have hb0 : 0 ≤ Real.sqrt (1 / 8) := Real.sqrt_nonneg _
  have hbsq : Real.sqrt (1 / 8) ^ 2 = 1 / 8 := Real.sq_sqrt (by norm_num)
  nlinarith [hb0, hbsq]

/-- C1 counterexample: a pattern-`0xFF` neighborhood (center black, all
eight neighbors and the whole extended ring white) at position `p = (0,0)`
with extents `3x3` to `12x12` does not return the center color: the
circular rule's outer region returns the corner color white instead. -/
theorem scenarioB_counterexample :
    is_different cWhite cBlack ∧
    omniEngine cWhite cWhite cWhite cWhite cBlack cWhite cWhite cWhite cWhite
      cWhite cWhite cWhite cWhite cWhite cWhite cWhite
      (0, 0) (3, 3) (12, 12) = cWhite ∧
    cWhite ≠ cBlack := by
  refine ⟨diff_white_black, ?_, cWhite_ne_cBlack⟩
  unfold omniEngine
  rw [basePattern_allDiff cWhite cWhite cWhite cWhite cBlack cWhite cWhite cWhite cWhite
    diff_white_black diff_white_black diff_white_black diff_white_black diff_white_black
    diff_white_black diff_white_black diff_white_black]
  unfold omniRules
  rw [if_neg (not_and_left (by decide)), if_neg (not_and_left (by decide)),
    if_neg (fun hc => not_is_different_self cWhite hc.2),
    if_neg (fun hc => not_is_different_self cWhite hc.2),
    if_neg (by decide), if_neg (by decide), if_pos (by decide)]
  have hv : vlen (((0 : ℝ), (0 : ℝ)).1 - 0.5, ((0 : ℝ), (0 : ℝ)).2 - 0.5) =
      Real.sqrt (1 / 2) := by
    unfold vlen
    norm_num
  have hps : pixelSize ((3 : ℝ), (3 : ℝ)) ((12 : ℝ), (12 : ℝ)) = Real.sqrt (1 / 8) := by
    unfold pixelSize vlen
    norm_num
  rw [hv, hps]
  have ha0 : 0 ≤ Real.sqrt (1 / 2) := Real.sqrt_nonneg _
  have hb0 : 0 ≤ Real.sqrt (1 / 8) := Real.sqrt_nonneg _
  have hasq : Real.sqrt (1 / 2) ^ 2 = 1 / 2 := Real.sq_sqrt (by norm_num)
  have hbsq : Real.sqrt (1 / 8) ^ 2 = 1 / 8 := Real.sq_sqrt (by norm_num)
  have h1 : ¬ (Real.sqrt (1 / 2) < 0.5 - Real.sqrt (1 / 8) / 2) := by
    push_neg
    nlinarith [ha0, hb0, hasq, hbsq]
  have h2 : Real.sqrt (1 / 2) > 0.5 + Real.sqrt (1 / 8) / 2 := by
    nlinarith [ha0, hb0, hasq, hbsq, sq_nonneg (Real.sqrt (1 / 2) - 2 * Real.sqrt (1 / 8))]
  rw [if_neg h1, if_pos h2, cornerR_self]

/-- The horizontal mirror of a source image. -/
def mirrorX (img : Image) : Image :=
  ⟨img.width, img.height, fun i j => img.pix (img.width - 1 - i) j⟩

/-- The vertical mirror of a source image. -/
def mirrorY (img : Image) : Image :=
  ⟨img.width, img.height, fun i j => img.pix i (img.height - 1 - j)⟩

theorem mirrorX_width (img : Image) : (mirrorX img).width = img.width := rfl

theorem mirrorX_height (img : Image) : (mirrorX img).height = img.height := rfl

theorem mirrorY_width (img : Image) : (mirrorY img).width = img.width := rfl

theorem mirrorY_height (img : Image) : (mirrorY img).height = img.height := rfl

theorem floor_neg_of_fract_ne_zero {x : ℝ} (h : Int.fract x ≠ 0) :
    ⌊-x⌋ = -⌊x⌋ - 1 := by
  have h1 : 0 < Int.fract x := lt_of_le_of_ne (Int.fract_nonneg x) (Ne.symm h)
  rw [Int.fract] at h1
  have h2 := Int.lt_floor_add_one x
  refine floor_eval (-⌊x⌋ - 1) ?_ ?_
  · push_cast
    linarith
  · push_cast
    linarith

theorem clampIdx_mirror (W : ℕ) (hW : 1 ≤ W) (m : ℤ) :
    W - 1 - clampIdx W ((W : ℤ) - 1 - m) = clampIdx W m := by
  unfold clampIdx
  simp only [Int.max_def, Int.min_def]
  split_ifs <;> omega

theorem sample_mirrorX (img : Image) (hW : 1 ≤ img.width) (X Y : ℝ)
    (hf : Int.fract (X * img.width) ≠ 0) :
    sample (mirrorX img) (1 - X, Y) = sample img (X, Y) := by
  unfold sample mirrorX
  dsimp only
  have e1 : (1 - X) * (img.width : ℝ) = ((img.width : ℤ) : ℝ) + -(X * img.width) := by
    push_cast
    ring
  rw [e1, Int.floor_int_add, floor_neg_of_fract_ne_zero hf]
  have e2 : (img.width : ℤ) + (-⌊X * (img.width : ℝ)⌋ - 1) =
      (img.width : ℤ) - 1 - ⌊X * (img.width : ℝ)⌋ := by ring
  rw [e2, clampIdx_mirror img.width hW]

theorem sample_mirrorY (img : Image) (hH : 1 ≤ img.height) (X Y : ℝ)
    (hf : Int.fract (Y * img.height) ≠ 0) :
    sample (mirrorY img) (X, 1 - Y) = sample img (X, Y) := by
  unfold sample mirrorY
  dsimp only
  have e1 : (1 - Y) * (img.height : ℝ) = ((img.height : ℤ) : ℝ) + -(Y * img.height) := by
    push_cast
    ring
  rw [e1, Int.floor_int_add, floor_neg_of_fract_ne_zero hf]
  have e2 : (img.height : ℤ) + (-⌊Y * (img.height : ℝ)⌋ - 1) =
      (img.height : ℤ) - 1 - ⌊Y * (img.height : ℝ)⌋ := by ring
  rw [e2, clampIdx_mirror img.height hH]

theorem scale_mirrorX_eq (img : Image) (tgtSize : ℝ × ℝ) (cx cy : ℝ)
    (hW : 1 ≤ img.width)
    (hf0 : Int.fract (cx * img.width) ≠ 0)
    (hfh : Int.fract (cx * img.width) ≠ 1 / 2) :
    scale (mirrorX img) tgtSize (1 - cx, cy) = scale img tgtSize (cx, cy) := by
  have hWR : ((img.width : ℝ)) ≠ 0 := by
    have h : (0 : ℝ) < img.width := by exact_mod_cast Nat.lt_of_lt_of_le Nat.zero_lt_one hW
    exact ne_of_gt h
  have hfr : Int.fract ((1 - cx) * (img.width : ℝ)) = 1 - Int.fract (cx * img.width) := by
    have e : (1 - cx) * (img.width : ℝ) = ((img.width : ℤ) : ℝ) + -(cx * img.width) := by
      push_cast
      ring
    rw [e, Int.fract_int_add, Int.fract_neg hf0]
  have hfm1 : Int.fract ((cx - 1 / (img.width : ℝ)) * img.width) ≠ 0 := by
    have e : (cx - 1 / (img.width : ℝ)) * img.width = cx * img.width + ((-1 : ℤ) : ℝ) := by
      push_cast
      rw [sub_mul, one_div_mul_cancel hWR]
      ring
    rw [e, Int.fract_add_int]
    exact hf0
  have hfp1 : Int.fract ((cx + 1 / (img.width : ℝ)) * img.width) ≠ 0 := by
    have e : (cx + 1 / (img.width : ℝ)) * img.width = cx * img.width + ((1 : ℤ) : ℝ) := by
      push_cast
      rw [add_mul, one_div_mul_cancel hWR]
    rw [e, Int.fract_add_int]
    exact hf0
  have hfm2 : Int.fract ((cx - 2 * (1 / (img.width : ℝ))) * img.width) ≠ 0 := by
    have e : (cx - 2 * (1 / (img.width : ℝ))) * img.width =
        cx * img.width + ((-2 : ℤ) : ℝ) := by
      push_cast
      rw [sub_mul, mul_assoc, one_div_mul_cancel hWR]
      ring
    rw [e, Int.fract_add_int]
    exact hf0
  have hfp2 : Int.fract ((cx + 2 * (1 / (img.width : ℝ))) * img.width) ≠ 0 := by
    have e : (cx + 2 * (1 / (img.width : ℝ))) * img.width =
        cx * img.width + ((2 : ℤ) : ℝ) := by
      push_cast
      rw [add_mul, mul_assoc, one_div_mul_cancel hWR]
      ring
    rw [e, Int.fract_add_int]
    exact hf0
  have e0 : ∀ Y : ℝ, sample (mirrorX img) (1 - cx, Y) = sample img (cx, Y) :=
    fun Y => sample_mirrorX img hW cx Y hf0
  have em1 : ∀ Y : ℝ, sample (mirrorX img) (1 - cx + 1 / (img.width : ℝ), Y) =
      sample img (cx - 1 / (img.width : ℝ), Y) := by
    intro Y
    have h := sample_mirrorX img hW (cx - 1 / (img.width : ℝ)) Y hfm1
    rw [show (1 : ℝ) - (cx - 1 / (img.width : ℝ)) = 1 - cx + 1 / (img.width : ℝ) from by
      ring] at h
    exact h
  have ep1 : ∀ Y : ℝ, sample (mirrorX img) (1 - cx - 1 / (img.width : ℝ), Y) =
      sample img (cx + 1 / (img.width : ℝ), Y) := by
    intro Y
    have h := sample_mirrorX img hW (cx + 1 / (img.width : ℝ)) Y hfp1
    rw [show (1 : ℝ) - (cx + 1 / (img.width : ℝ)) = 1 - cx - 1 / (img.width : ℝ) from by
      ring] at h
    exact h
  have em2 : ∀ Y : ℝ, sample (mirrorX img) (1 - cx + 2 * (1 / (img.width : ℝ)), Y) =
      sample img (cx - 2 * (1 / (img.width : ℝ)), Y) := by
    intro Y
    have h := sample_mirrorX img hW (cx - 2 * (1 / (img.width : ℝ))) Y hfm2
    rw [show (1 : ℝ) - (cx - 2 * (1 / (img.width : ℝ))) =
        1 - cx + 2 * (1 / (img.width : ℝ)) from by ring] at h
    exact h
  have ep2 : ∀ Y : ℝ, sample (mirrorX img) (1 - cx - 2 * (1 / (img.width : ℝ)), Y) =
      sample img (cx + 2 * (1 / (img.width : ℝ)), Y) := by
    intro Y
    have h := sample_mirrorX img hW (cx + 2 * (1 / (img.width : ℝ))) Y hfp2
    rw [show (1 : ℝ) - (cx + 2 * (1 / (img.width : ℝ))) =
        1 - cx - 2 * (1 / (img.width : ℝ)) from by ring] at h
    exact h
  have hoyEq : offY (mirrorX img) (1 - cx, cy) = offY img (cx, cy) := by
    unfold offY
    dsimp only
    rw [mirrorX_height]
  have hfnn := Int.fract_nonneg (cx * (img.width : ℝ))
  have hflt := Int.fract_lt_one (cx * (img.width : ℝ))
  rcases lt_or_gt_of_ne hfh with hlt | hgt
  · have hnfL : ¬ (Int.fract (cx * ((img.width : ℕ) : ℝ)) > 0.5) := by
      rw [gt_iff_lt, show (0.5 : ℝ) = 1 / 2 from by norm_num]
      exact not_lt.mpr hlt.le
    have hfR : Int.fract ((1 - cx) * ((img.width : ℕ) : ℝ)) > 0.5 := by
      rw [hfr, gt_iff_lt, show (0.5 : ℝ) = 1 / 2 from by norm_num]
      linarith
    have hoxL : offX img (cx, cy) = 1 / (img.width : ℝ) := by
      unfold offX
      dsimp only
      rw [if_neg hnfL]
    have hoxR : offX (mirrorX img) (1 - cx, cy) = -(1 / (img.width : ℝ)) := by
      unfold offX
      dsimp only
      rw [mirrorX_width, if_pos hfR]
    have hpx : normFrac (Int.fract ((1 - cx) * (img.width : ℝ))) =
        normFrac (Int.fract (cx * (img.width : ℝ))) := by
      unfold normFrac
      rw [if_pos hfR, if_neg hnfL, hfr]
      ring
    unfold scale
    dsimp only
    simp only [mirrorX_width, mirrorX_height, hoxL, hoxR, hoyEq, hpx, mul_neg,
      sub_neg_eq_add, ← sub_eq_add_neg]
    simp only [e0, em1, ep1, em2, ep2]
  · have hfL : Int.fract (cx * ((img.width : ℕ) : ℝ)) > 0.5 := by
      rw [gt_iff_lt, show (0.5 : ℝ) = 1 / 2 from by norm_num]
      exact hgt
    have hnfR : ¬ (Int.fract ((1 - cx) * ((img.width : ℕ) : ℝ)) > 0.5) := by
      rw [hfr, gt_iff_lt, show (0.5 : ℝ) = 1 / 2 from by norm_num]
      push_neg
      linarith
    have hoxL : offX img (cx, cy) = -(1 / (img.width : ℝ)) := by
      unfold offX
      dsimp only
      rw [if_pos hfL]
    have hoxR : offX (mirrorX img) (1 - cx, cy) = 1 / (img.width : ℝ) := by
      unfold offX
      dsimp only
      rw [mirrorX_width, if_neg hnfR]
    have hpx : normFrac (Int.fract ((1 - cx) * (img.width : ℝ))) =
        normFrac (Int.fract (cx * (img.width : ℝ))) := by
      unfold normFrac
      rw [if_neg hnfR, if_pos hfL, hfr]
    unfold scale
    dsimp only
    simp only [mirrorX_width, mirrorX_height, hoxL, hoxR, hoyEq, hpx, mul_neg,
      sub_neg_eq_add, ← sub_eq_add_neg]
    simp only [e0, em1, ep1, em2, ep2]

theorem scale_mirrorY_eq (img : Image) (tgtSize : ℝ × ℝ) (cx cy : ℝ)
    (hH : 1 ≤ img.height)
    (hf0 : Int.fract (cy * img.height) ≠ 0)
    (hfh : Int.fract (cy * img.height) ≠ 1 / 2) :
    scale (mirrorY img) tgtSize (cx, 1 - cy) = scale img tgtSize (cx, cy) := by
  have hHR : ((img.height : ℝ)) ≠ 0 := by
    have h : (0 : ℝ) < img.height := by exact_mod_cast Nat.lt_of_lt_of_le Nat.zero_lt_one hH
    exact ne_of_gt h
  have hfr : Int.fract ((1 - cy) * (img.height : ℝ)) = 1 - Int.fract (cy * img.height) := by
    have e : (1 - cy) * (img.height : ℝ) = ((img.height : ℤ) : ℝ) + -(cy * img.height) := by
      push_cast
      ring
    rw [e, Int.fract_int_add, Int.fract_neg hf0]
  have hfm1 : Int.fract ((cy - 1 / (img.height : ℝ)) * img.height) ≠ 0 := by
    have e : (cy - 1 / (img.height : ℝ)) * img.height =
        cy * img.height + ((-1 : ℤ) : ℝ) := by
      push_cast
      rw [sub_mul, one_div_mul_cancel hHR]
      ring
    rw [e, Int.fract_add_int]
    exact hf0
  have hfp1 : Int.fract ((cy + 1 / (img.height : ℝ)) * img.height) ≠ 0 := by
    have e : (cy + 1 / (img.height : ℝ)) * img.height =
        cy * img.height + ((1 : ℤ) : ℝ) := by
      push_cast
      rw [add_mul, one_div_mul_cancel hHR]
    rw [e, Int.fract_add_int]
    exact hf0
  have hfm2 : Int.fract ((cy - 2 * (1 / (img.height : ℝ))) * img.height) ≠ 0 := by
    have e : (cy - 2 * (1 / (img.height : ℝ))) * img.height =
        cy * img.height + ((-2 : ℤ) : ℝ) := by
      push_cast
      rw [sub_mul, mul_assoc, one_div_mul_cancel hHR]
      ring
    rw [e, Int.fract_add_int]
    exact hf0
  have hfp2 : Int.fract ((cy + 2 * (1 / (img.height : ℝ))) * img.height) ≠ 0 := by
    have e : (cy + 2 * (1 / (img.height : ℝ))) * img.height =
        cy * img.height + ((2 : ℤ) : ℝ) := by
      push_cast
      rw [add_mul, mul_assoc, one_div_mul_cancel hHR]
      ring
    rw [e, Int.fract_add_int]
    exact hf0
  have e0 : ∀ X : ℝ, sample (mirrorY img) (X, 1 - cy) = sample img (X, cy) :=
    fun X => sample_mirrorY img hH X cy hf0
  have em1 : ∀ X : ℝ, sample (mirrorY img) (X, 1 - cy + 1 / (img.height : ℝ)) =
      sample img (X, cy - 1 / (img.height : ℝ)) := by
    intro X
    have h := sample_mirrorY img hH X (cy - 1 / (img.height : ℝ)) hfm1
    rw [show (1 : ℝ) - (cy - 1 / (img.height : ℝ)) = 1 - cy + 1 / (img.height : ℝ) from by
      ring] at h
    exact h
  have ep1 : ∀ X : ℝ, sample (mirrorY img) (X, 1 - cy - 1 / (img.height : ℝ)) =
      sample img (X, cy + 1 / (img.height : ℝ)) := by
    intro X
    have h := sample_mirrorY img hH X (cy + 1 / (img.height : ℝ)) hfp1
    rw [show (1 : ℝ) - (cy + 1 / (img.height : ℝ)) = 1 - cy - 1 / (img.height : ℝ) from by
      ring] at h
    exact h
  have em2 : ∀ X : ℝ, sample (mirrorY img) (X, 1 - cy + 2 * (1 / (img.height : ℝ))) =
      sample img (X, cy - 2 * (1 / (img.height : ℝ))) := by
    intro X
    have h := sample_mirrorY img hH X (cy - 2 * (1 / (img.height : ℝ))) hfm2
    rw [show (1 : ℝ) - (cy - 2 * (1 / (img.height : ℝ))) =
        1 - cy + 2 * (1 / (img.height : ℝ)) from by ring] at h
    exact h
  have ep2 : ∀ X : ℝ, sample (mirrorY img) (X, 1 - cy - 2 * (1 / (img.height : ℝ))) =
      sample img (X, cy + 2 * (1 / (img.height : ℝ))) := by
    intro X
    have h := sample_mirrorY img hH X (cy + 2 * (1 / (img.height : ℝ))) hfp2
    rw [show (1 : ℝ) - (cy + 2 * (1 / (img.height : ℝ))) =
        1 - cy - 2 * (1 / (img.height : ℝ)) from by ring] at h
    exact h
  have hoxEq : offX (mirrorY img) (cx, 1 - cy) = offX img (cx, cy) := by
    unfold offX
    dsimp only
    rw [mirrorY_width]
  rcases lt_or_gt_of_ne hfh with hlt | hgt
  · have hnfL : ¬ (Int.fract (cy * ((img.height : ℕ) : ℝ)) > 0.5) := by
      rw [gt_iff_lt, show (0.5 : ℝ) = 1 / 2 from by norm_num]
      exact not_lt.mpr hlt.le
    have hfR : Int.fract ((1 - cy) * ((img.height : ℕ) : ℝ)) > 0.5 := by
      rw [hfr, gt_iff_lt, show (0.5 : ℝ) = 1 / 2 from by norm_num]
      linarith
    have hoyL : offY img (cx, cy) = 1 / (img.height : ℝ) := by
      unfold offY
      dsimp only
      rw [if_neg hnfL]
    have hoyR : offY (mirrorY img) (cx, 1 - cy) = -(1 / (img.height : ℝ)) := by
      unfold offY
      dsimp only
      rw [mirrorY_height, if_pos hfR]
    have hpy : normFrac (Int.fract ((1 - cy) * (img.height : ℝ))) =
        normFrac (Int.fract (cy * (img.height : ℝ))) := by
      unfold normFrac
      rw [if_pos hfR, if_neg hnfL, hfr]
      ring
    unfold scale
    dsimp only
    simp only [mirrorY_width, mirrorY_height, hoyL, hoyR, hoxEq, hpy, mul_neg,
      sub_neg_eq_add, ← sub_eq_add_neg]
    simp only [e0, em1, ep1, em2, ep2]
  · have hfL : Int.fract (cy * ((img.height : ℕ) : ℝ)) > 0.5 := by
      rw [gt_iff_lt, show (0.5 : ℝ) = 1 / 2 from by norm_num]
      exact hgt
    have hnfR : ¬ (Int.fract ((1 - cy) * ((img.height : ℕ) : ℝ)) > 0.5) := by
      rw [hfr, gt_iff_lt, show (0.5 : ℝ) = 1 / 2 from by norm_num]
      push_neg
      linarith
    have hoyL : offY img (cx, cy) = -(1 / (img.height : ℝ)) := by
      unfold offY
      dsimp only
      rw [if_pos hfL]
    have hoyR : offY (mirrorY img) (cx, 1 - cy) = 1 / (img.height : ℝ) := by
      unfold offY
      dsimp only
      rw [mirrorY_height, if_neg hnfR]
    have hpy : normFrac (Int.fract ((1 - cy) * (img.height : ℝ))) =
        normFrac (Int.fract (cy * (img.height : ℝ))) := by
      unfold normFrac
      rw [if_neg hnfR, if_pos hfL, hfr]
    unfold scale
    dsimp only
    simp only [mirrorY_width, mirrorY_height, hoyL, hoyR, hoxEq, hpy, mul_neg,
      sub_neg_eq_add, ← sub_eq_add_neg]
    simp only [e0, em1, ep1, em2, ep2]

/-- C2 (amended): scaling an image agrees with scaling its horizontally
(resp. vertically) mirrored source at the mirrored coordinate whenever the
mirrored axis's source-space coordinate does not fall exactly on a texel
boundary (fractional part 0) or exactly on a texel center (fractional part
1/2); at those measure-zero positions nearest sampling breaks the
mirror correspondence. -/
theorem quadrant_invariance_mirror :
    (∀ (img : Image) (tgtSize : ℝ × ℝ) (cx cy : ℝ), 1 ≤ img.width →
      Int.fract (cx * img.width) ≠ 0 → Int.fract (cx * img.width) ≠ 1 / 2 →
      scale img tgtSize (cx, cy) = scale (mirrorX img) tgtSize (1 - cx, cy)) ∧
    (∀ (img : Image) (tgtSize : ℝ × ℝ) (cx cy : ℝ), 1 ≤ img.height →
      Int.fract (cy * img.height) ≠ 0 → Int.fract (cy * img.height) ≠ 1 / 2 →
      scale img tgtSize (cx, cy) = scale (mirrorY img) tgtSize (cx, 1 - cy)) :=
  ⟨fun img t cx cy hW h0 hh => (scale_mirrorX_eq img t cx cy hW h0 hh).symm,
   fun img t cx cy hH h0 hh => (scale_mirrorY_eq img t cx cy hH h0 hh).symm⟩

/-- A 2x1 source image, black texel on the left, white texel on the right. -/
def imgAB : Image := ⟨2, 1, fun i _ => if i = 0 then cBlack else cWhite⟩

theorem imgAB_width : imgAB.width = 2 := rfl

theorem imgAB_height : imgAB.height = 1 := rfl

theorem quadrant_invariance_mirror_witness :
    scale imgAB (1, 1) (0.3, 0.7) = scale (mirrorX imgAB) (1, 1) (1 - (0.3 : ℝ), 0.7) ∧
    scale imgAB (1, 1) (0.3, 0.7) = scale (mirrorY imgAB) (1, 1) (0.3, 1 - (0.7 : ℝ)) := by
  have hx : Int.fract ((0.3 : ℝ) * ((2 : ℕ) : ℝ)) = 0.6 :=
    fract_val 0 (by push_cast; norm_num) (by push_cast; norm_num) (by push_cast; norm_num)
  have hy : Int.fract ((0.7 : ℝ) * ((1 : ℕ) : ℝ)) = 0.7 :=
    fract_val 0 (by push_cast; norm_num) (by push_cast; norm_num) (by push_cast; norm_num)
  constructor
  · refine quadrant_invariance_mirror.1 imgAB (1, 1) 0.3 0.7 (by decide) ?_ ?_
    · show Int.fract ((0.3 : ℝ) * ((2 : ℕ) : ℝ)) ≠ 0
      rw [hx]
      norm_num
    · show Int.fract ((0.3 : ℝ) * ((2 : ℕ) : ℝ)) ≠ 1 / 2
      rw [hx]
      norm_num
  · refine quadrant_invariance_mirror.2 imgAB (1, 1) 0.3 0.7 (by decide) ?_ ?_
    · show Int.fract ((0.7 : ℝ) * ((1 : ℕ) : ℝ)) ≠ 0
      rw [hy]
      norm_num
    · show Int.fract ((0.7 : ℝ) * ((1 : ℕ) : ℝ)) ≠ 1 / 2
      rw [hy]
      norm_num

theorem sample_imgAB (X Y : ℝ) :
    sample imgAB (X, Y) =
      if clampIdx 2 ⌊X * ((2 : ℕ) : ℝ)⌋ = 0 then cBlack else cWhite := rfl

theorem sample_mirrorX_imgAB (X Y : ℝ) :
    sample (mirrorX imgAB) (X, Y) =
      if 2 - 1 - clampIdx 2 ⌊X * ((2 : ℕ) : ℝ)⌋ = 0 then cBlack else cWhite := rfl

theorem scale_imgAB_at_boundary : scale imgAB (1, 1) ((0.5 : ℝ), (0.5 : ℝ)) = cWhite := by
  have hfx : Int.fract ((0.5 : ℝ) * ((2 : ℕ) : ℝ)) = 0 :=
    fract_val 1 (by push_cast; norm_num) (by push_cast; norm_num) (by push_cast; norm_num)
  have hnfx : ¬ (Int.fract ((0.5 : ℝ) * ((2 : ℕ) : ℝ)) > 0.5) := by
    rw [hfx]
    norm_num
  have hfy : Int.fract ((0.5 : ℝ) * ((1 : ℕ) : ℝ)) = 0.5 :=
    fract_val 0 (by push_cast; norm_num) (by push_cast; norm_num) (by push_cast; norm_num)
  have hnfy : ¬ (Int.fract ((0.5 : ℝ) * ((1 : ℕ) : ℝ)) > 0.5) := by
    rw [hfy]
    norm_num
  have hox : offX imgAB ((0.5 : ℝ), (0.5 : ℝ)) = 1 / ((2 : ℕ) : ℝ) := by
    unfold offX
    dsimp only
    simp only [imgAB_width]
    rw [if_neg hnfx]
  have hoy : offY imgAB ((0.5 : ℝ), (0.5 : ℝ)) = 1 / ((1 : ℕ) : ℝ) := by
    unfold offY
    dsimp only
    simp only [imgAB_height]
    rw [if_neg hnfy]
  have hc1 : clampIdx 2 ⌊((0.5 : ℝ) - 1 / ((2 : ℕ) : ℝ)) * ((2 : ℕ) : ℝ)⌋ = 0 := by
    rw [floor_eval 0 (by push_cast; norm_num) (by push_cast; norm_num)]
    decide
  have hc2 : clampIdx 2 ⌊(0.5 : ℝ) * ((2 : ℕ) : ℝ)⌋ = 1 := by
    rw [floor_eval 1 (by push_cast; norm_num) (by push_cast; norm_num)]
    decide
  have hc3 : clampIdx 2 ⌊((0.5 : ℝ) + 1 / ((2 : ℕ) : ℝ)) * ((2 : ℕ) : ℝ)⌋ = 1 := by
    rw [floor_eval 2 (by push_cast; norm_num) (by push_cast; norm_num)]
    decide
  unfold scale
  dsimp only
  simp only [imgAB_width, imgAB_height, hox, hoy, sample_imgAB, hc1, hc2, hc3,
    reduceIte, Nat.one_ne_zero, OfNat.ofNat_ne_zero, eq_self_iff_true, ite_false, ite_true]
  rw [basePattern_leftCol cWhite cBlack diff_black_white, omniRules_leftEdge]
  exact mix_self cWhite _

theorem scale_mirror_imgAB_at_boundary :
    scale (mirrorX imgAB) (1, 1) (1 - (0.5 : ℝ), (0.5 : ℝ)) = cBlack := by
  rw [show (1 : ℝ) - (0.5 : ℝ) = 0.5 from by norm_num]
  have hfx : Int.fract ((0.5 : ℝ) * ((2 : ℕ) : ℝ)) = 0 :=
    fract_val 1 (by push_cast; norm_num) (by push_cast; norm_num) (by push_cast; norm_num)
  have hnfx : ¬ (Int.fract ((0.5 : ℝ) * ((2 : ℕ) : ℝ)) > 0.5) := by
    rw [hfx]
    norm_num
  have hfy : Int.fract ((0.5 : ℝ) * ((1 : ℕ) : ℝ)) = 0.5 :=
    fract_val 0 (by push_cast; norm_num) (by push_cast; norm_num) (by push_cast; norm_num)
  have hnfy : ¬ (Int.fract ((0.5 : ℝ) * ((1 : ℕ) : ℝ)) > 0.5) := by
    rw [hfy]
    norm_num
  have hox : offX (mirrorX imgAB) ((0.5 : ℝ), (0.5 : ℝ)) = 1 / ((2 : ℕ) : ℝ) := by
    unfold offX
    dsimp only
    simp only [mirrorX_width, imgAB_width]
    rw [if_neg hnfx]
  have hoy : offY (mirrorX imgAB) ((0.5 : ℝ), (0.5 : ℝ)) = 1 / ((1 : ℕ) : ℝ) := by
    unfold offY
    dsimp only
    simp only [mirrorX_height, imgAB_height]
    rw [if_neg hnfy]
  have hc1 : clampIdx 2 ⌊((0.5 : ℝ) - 1 / ((2 : ℕ) : ℝ)) * ((2 : ℕ) : ℝ)⌋ = 0 := by
    rw [floor_eval 0 (by push_cast; norm_num) (by push_cast; norm_num)]
    decide
  have hc2 : clampIdx 2 ⌊(0.5 : ℝ) * ((2 : ℕ) : ℝ)⌋ = 1 := by
    rw [floor_eval 1 (by push_cast; norm_num) (by push_cast; norm_num)]
    decide
  have hc3 : clampIdx 2 ⌊((0.5 : ℝ) + 1 / ((2 : ℕ) : ℝ)) * ((2 : ℕ) : ℝ)⌋ = 1 := by
    rw [floor_eval 2 (by push_cast; norm_num) (by push_cast; norm_num)]
    decide
  unfold scale
  dsimp only
  simp only [mirrorX_width, mirrorX_height, imgAB_width, imgAB_height, hox, hoy,
    sample_mirrorX_imgAB, hc1, hc2, hc3, Nat.reduceSub, reduceIte, Nat.one_ne_zero,
    OfNat.ofNat_ne_zero, eq_self_iff_true, ite_false, ite_true]
  rw [basePattern_leftCol cBlack cWhite diff_white_black, omniRules_leftEdge]
  exact mix_self cBlack _

/-- A 3x2 source image used for the texel-center counterexample: top row
`black, white, black`, bottom row `white, black, black`. -/
def imgC : Image :=
  ⟨3, 2, fun i j =>
    if j = 0 then (if i = 1 then cWhite else cBlack)
    else (if i = 0 then cWhite else cBlack)⟩

theorem imgC_width : imgC.width = 3 := rfl

theorem imgC_height : imgC.height = 2 := rfl

theorem sample_imgC (X Y : ℝ) :
    sample imgC (X, Y) =
      if clampIdx 2 ⌊Y * ((2 : ℕ) : ℝ)⌋ = 0 then
        (if clampIdx 3 ⌊X * ((3 : ℕ) : ℝ)⌋ = 1 then cWhite else cBlack)
      else
        (if clampIdx 3 ⌊X * ((3 : ℕ) : ℝ)⌋ = 0 then cWhite else cBlack) := rfl

theorem sample_mirrorX_imgC (X Y : ℝ) :
    sample (mirrorX imgC) (X, Y) =
      if clampIdx 2 ⌊Y * ((2 : ℕ) : ℝ)⌋ = 0 then
        (if 3 - 1 - clampIdx 3 ⌊X * ((3 : ℕ) : ℝ)⌋ = 1 then cWhite else cBlack)
      else
        (if 3 - 1 - clampIdx 3 ⌊X * ((3 : ℕ) : ℝ)⌋ = 0 then cWhite else cBlack) := rfl

theorem basePattern_imgC_orig :
    basePattern cWhite cWhite cBlack cBlack cBlack cWhite cBlack cBlack cWhite = 147 := by
  unfold basePattern
  rw [if_pos diff_white_black, if_pos diff_white_black,
    if_neg (not_is_different_self cBlack), if_neg (not_is_different_self cBlack),
    if_pos diff_white_black, if_neg (not_is_different_self cBlack),
    if_neg (not_is_different_self cBlack), if_pos diff_white_black]

theorem basePattern_imgC_mirror :
    basePattern cBlack cWhite cWhite cWhite cBlack cBlack cWhite cBlack cBlack = 46 := by
  unfold basePattern
  rw [if_neg (not_is_different_self cBlack), if_pos diff_white_black,
    if_pos diff_white_black, if_pos diff_white_black,
    if_neg (not_is_different_self cBlack), if_pos diff_white_black,
    if_neg (not_is_different_self cBlack), if_neg (not_is_different_self cBlack)]

/-- Pattern `0x93` selects the axis-pattern rule `P(0x8b,0x83)`. -/
theorem omniRules_pattern147 (w0 w1 w2 w3 w4 w5 w6 w7 w8 x0 x1 x2 x3 x4 x5 x6 : Color)
    (p : ℝ × ℝ) (srcSize tgtSize : ℝ × ℝ) :
    omniRules 147 w0 w1 w2 w3 w4 w5 w6 w7 w8 x0 x1 x2 x3 x4 x5 x6 p srcSize tgtSize =
      mix w4 w3 (0.5 - p.1) := by
  unfold omniRules
  rw [if_neg (not_and_left (by decide)), if_neg (not_and_left (by decide)),
    if_neg (not_and_left (by decide)), if_neg (not_and_left (by decide)),
    if_neg (by decide), if_neg (by decide), if_neg (by decide), if_neg (by decide),
    if_neg (by decide), if_neg (by decide), if_neg (by decide),
    if_pos (by decide)]

theorem scale_imgC_orig : scale imgC (12, 8) ((1 : ℝ) / 6, (7 : ℝ) / 16) = cBlack := by
  have hfx : Int.fract ((1 : ℝ) / 6 * ((3 : ℕ) : ℝ)) = 1 / 2 :=
    fract_val 0 (by push_cast; norm_num) (by push_cast; norm_num) (by push_cast; norm_num)
  have hnfx : ¬ (Int.fract ((1 : ℝ) / 6 * ((3 : ℕ) : ℝ)) > 0.5) := by
    rw [hfx]
    norm_num
  have hfy : Int.fract ((7 : ℝ) / 16 * ((2 : ℕ) : ℝ)) = 7 / 8 :=
    fract_val 0 (by push_cast; norm_num) (by push_cast; norm_num) (by push_cast; norm_num)
  have hfyp : Int.fract ((7 : ℝ) / 16 * ((2 : ℕ) : ℝ)) > 0.5 := by
    rw [hfy]
    norm_num
  have hox : offX imgC ((1 : ℝ) / 6, (7 : ℝ) / 16) = 1 / ((3 : ℕ) : ℝ) := by
    unfold offX
    dsimp only
    simp only [imgC_width]
    rw [if_neg hnfx]
  have hoy : offY imgC ((1 : ℝ) / 6, (7 : ℝ) / 16) = -(1 / ((2 : ℕ) : ℝ)) := by
    unfold offY
    dsimp only
    simp only [imgC_height]
    rw [if_pos hfyp]
  have hcm : clampIdx 3 ⌊((1 : ℝ) / 6 - 1 / ((3 : ℕ) : ℝ)) * ((3 : ℕ) : ℝ)⌋ = 0 := by
    rw [floor_eval (-1) (by push_cast; norm_num) (by push_cast; norm_num)]
    decide
  have hcc : clampIdx 3 ⌊(1 : ℝ) / 6 * ((3 : ℕ) : ℝ)⌋ = 0 := by
    rw [floor_eval 0 (by push_cast; norm_num) (by push_cast; norm_num)]
    decide
  have hcp : clampIdx 3 ⌊((1 : ℝ) / 6 + 1 / ((3 : ℕ) : ℝ)) * ((3 : ℕ) : ℝ)⌋ = 1 := by
    rw [floor_eval 1 (by push_cast; norm_num) (by push_cast; norm_num)]
    decide
  have hrT : clampIdx 2 ⌊((7 : ℝ) / 16 + 1 / ((2 : ℕ) : ℝ)) * ((2 : ℕ) : ℝ)⌋ = 1 := by
    rw [floor_eval 1 (by push_cast; norm_num) (by push_cast; norm_num)]
    decide
  have hrC : clampIdx 2 ⌊(7 : ℝ) / 16 * ((2 : ℕ) : ℝ)⌋ = 0 := by
    rw [floor_eval 0 (by push_cast; norm_num) (by push_cast; norm_num)]
    decide
  have hrB : clampIdx 2 ⌊((7 : ℝ) / 16 - 1 / ((2 : ℕ) : ℝ)) * ((2 : ℕ) : ℝ)⌋ = 0 := by
    rw [floor_eval (-1) (by push_cast; norm_num) (by push_cast; norm_num)]
    decide
  unfold scale
  dsimp only
  simp only [imgC_width, imgC_height, hox, hoy, mul_neg, sub_neg_eq_add, ← sub_eq_add_neg,
    sample_imgC, hcm, hcc, hcp, hrT, hrC, hrB, reduceIte, Nat.one_ne_zero,
    Nat.zero_ne_one, OfNat.ofNat_ne_zero, eq_self_iff_true, ite_false, ite_true]
  rw [basePattern_imgC_orig, omniRules_pattern147]
  exact mix_self cBlack _

theorem nat_two_ne_one : (2 : ℕ) ≠ 1 := by decide

theorem scale_imgC_mirror :
    scale (mirrorX imgC) (12, 8) (1 - (1 : ℝ) / 6, (7 : ℝ) / 16) =
      mix cWhite cBlack (aaFactor ((1 : ℝ) / 2 + 1 / 8) 0.5 (Real.sqrt (1 / 8))) := by
  rw [show (1 : ℝ) - (1 : ℝ) / 6 = 5 / 6 from by norm_num]
  have hfx : Int.fract ((5 : ℝ) / 6 * ((3 : ℕ) : ℝ)) = 1 / 2 :=
    fract_val 2 (by push_cast; norm_num) (by push_cast; norm_num) (by push_cast; norm_num)
  have hnfx : ¬ (Int.fract ((5 : ℝ) / 6 * ((3 : ℕ) : ℝ)) > 0.5) := by
    rw [hfx]
    norm_num
  have hfy : Int.fract ((7 : ℝ) / 16 * ((2 : ℕ) : ℝ)) = 7 / 8 :=
    fract_val 0 (by push_cast; norm_num) (by push_cast; norm_num) (by push_cast; norm_num)
  have hfyp : Int.fract ((7 : ℝ) / 16 * ((2 : ℕ) : ℝ)) > 0.5 := by
    rw [hfy]
    norm_num
  have hox : offX (mirrorX imgC) ((5 : ℝ) / 6, (7 : ℝ) / 16) = 1 / ((3 : ℕ) : ℝ) := by
    unfold offX
    dsimp only
    simp only [mirrorX_width, imgC_width]
    rw [if_neg hnfx]
  have hoy : offY (mirrorX imgC) ((5 : ℝ) / 6, (7 : ℝ) / 16) = -(1 / ((2 : ℕ) : ℝ)) := by
    unfold offY
    dsimp only
    simp only [mirrorX_height, imgC_height]
    rw [if_pos hfyp]
  have hcm : clampIdx 3 ⌊((5 : ℝ) / 6 - 1 / ((3 : ℕ) : ℝ)) * ((3 : ℕ) : ℝ)⌋ = 1 := by
    rw [floor_eval 1 (by push_cast; norm_num) (by push_cast; norm_num)]
    decide
  have hcc : clampIdx 3 ⌊(5 : ℝ) / 6 * ((3 : ℕ) : ℝ)⌋ = 2 := by
    rw [floor_eval 2 (by push_cast; norm_num) (by push_cast; norm_num)]
    decide
  have hcp : clampIdx 3 ⌊((5 : ℝ) / 6 + 1 / ((3 : ℕ) : ℝ)) * ((3 : ℕ) : ℝ)⌋ = 2 := by
    rw [floor_eval 3 (by push_cast; norm_num) (by push_cast; norm_num)]
    decide
  have hcm2 : clampIdx 3 ⌊((5 : ℝ) / 6 - 2 * (1 / ((3 : ℕ) : ℝ))) * ((3 : ℕ) : ℝ)⌋ = 0 := by
    rw [floor_eval 0 (by push_cast; norm_num) (by push_cast; norm_num)]
    decide
  have hrT : clampIdx 2 ⌊((7 : ℝ) / 16 + 1 / ((2 : ℕ) : ℝ)) * ((2 : ℕ) : ℝ)⌋ = 1 := by
    rw [floor_eval 1 (by push_cast; norm_num) (by push_cast; norm_num)]
    decide
  have hrC : clampIdx 2 ⌊(7 : ℝ) / 16 * ((2 : ℕ) : ℝ)⌋ = 0 := by
    rw [floor_eval 0 (by push_cast; norm_num) (by push_cast; norm_num)]
    decide
  have hrB : clampIdx 2 ⌊((7 : ℝ) / 16 - 1 / ((2 : ℕ) : ℝ)) * ((2 : ℕ) : ℝ)⌋ = 0 := by
    rw [floor_eval (-1) (by push_cast; norm_num) (by push_cast; norm_num)]
    decide
  have hr2 : clampIdx 2 ⌊((7 : ℝ) / 16 + 2 * (1 / ((2 : ℕ) : ℝ))) * ((2 : ℕ) : ℝ)⌋ = 1 := by
    rw [floor_eval 2 (by push_cast; norm_num) (by push_cast; norm_num)]
    decide
  have hpx : normFrac (Int.fract ((5 : ℝ) / 6 * ((3 : ℕ) : ℝ))) = 1 / 2 := by
    rw [hfx]
    unfold normFrac
    rw [if_neg (by norm_num : ¬ ((1 : ℝ) / 2 > 0.5))]
  have hpy : normFrac (Int.fract ((7 : ℝ) / 16 * ((2 : ℕ) : ℝ))) = 1 / 8 := by
    rw [hfy]
    unfold normFrac
    rw [if_pos (by norm_num : ((7 : ℝ) / 8 > 0.5))]
    norm_num
  have hps : pixelSize (((3 : ℕ) : ℝ), ((2 : ℕ) : ℝ)) (12, 8) = Real.sqrt (1 / 8) := by
    unfold pixelSize vlen
    norm_num
  have hs0 : (0 : ℝ) < Real.sqrt (1 / 8) := Real.sqrt_pos.mpr (by norm_num)
  have hssq : Real.sqrt (1 / 8) ^ 2 = 1 / 8 := Real.sq_sqrt (by norm_num)
  have h1 : ¬ ((1 : ℝ) / 2 + 1 / 8 > 0.5 + Real.sqrt (1 / 8) / 2) := by
    push_neg
    nlinarith [hs0, hssq]
  have h2 : ¬ ((1 : ℝ) / 2 + 1 / 8 < 0.5 - Real.sqrt (1 / 8) / 2) := by
    push_neg
    nlinarith [hs0, hssq]
  unfold scale
  dsimp only
  simp only [mirrorX_width, mirrorX_height, imgC_width, imgC_height, hox, hoy, mul_neg,
    sub_neg_eq_add, ← sub_eq_add_neg, sample_mirrorX_imgC, hcm, hcc, hcp, hcm2, hrT, hrC,
    hrB, hr2, Nat.reduceSub, reduceIte, Nat.one_ne_zero, Nat.zero_ne_one, nat_two_ne_one,
    OfNat.ofNat_ne_zero, eq_self_iff_true, ite_false, ite_true]
  rw [basePattern_imgC_mirror]
  unfold omniRules
  dsimp only
  simp only [hpx, hpy, hps]
  rw [if_neg (not_and_left (by decide)), if_neg (not_and_left (by decide)),
    if_neg (not_and_left (by decide)),
    if_neg (fun hc => not_is_different_self cWhite hc.2),
    if_neg (by decide), if_neg (by decide), if_neg (by decide), if_neg (by decide),
    if_neg (by decide), if_neg (by decide), if_neg (by decide), if_neg (by decide),
    if_neg (by decide), if_neg (by decide), if_neg (by decide), if_neg (by decide),
    if_neg (by decide), if_neg h1]
  simp only [if_pos diff_white_black, if_neg (not_is_different_self cBlack)]
  rw [if_pos (by decide :
    ((popcount (46 ||| (0 ||| 0 ||| 1024 ||| 2048 ||| 0 ||| 0 ||| 0)) : ℤ) - 7 ≤ 0)),
    if_neg h2, mix_self]

theorem scale_imgC_mirror_ne :
    mix cWhite cBlack (aaFactor ((1 : ℝ) / 2 + 1 / 8) 0.5 (Real.sqrt (1 / 8))) ≠ cBlack := by
  intro he
  have hr := congrArg Color.r he
  unfold mix cadd csmul cWhite cBlack aaFactor at hr
  dsimp only at hr
  have hs0 : (0 : ℝ) < Real.sqrt (1 / 8) := Real.sqrt_pos.mpr (by norm_num)
  have hssq : Real.sqrt (1 / 8) ^ 2 = 1 / 8 := Real.sq_sqrt (by norm_num)
  have ht : ((1 : ℝ) / 2 + 1 / 8 - 0.5 + Real.sqrt (1 / 8) / 2) / Real.sqrt (1 / 8) = 1 := by
    nlinarith [hr]
  rw [div_eq_one_iff_eq hs0.ne'] at ht
  nlinarith [ht, hssq]

/-- C2 counterexample: two output coordinates where quadrant invariance
fails.  First, the 2x1 black/white source scaled to 1x1: the output
coordinate maps to source coordinate `0.5 * 2 = 1`, exactly a texel
boundary (fractional part 0), and `scale` gives white on the source but
black on the mirrored source at the mirrored coordinate.  Second, a 3x2
source at a coordinate whose mirrored axis lands exactly on a texel
center (fractional part 1/2): the source side resolves to an exact
axis-rule color while the mirrored side falls into the diagonal
disambiguator's anti-aliasing band and returns a strict blend. -/
theorem quadrant_invariance_counterexample :
    (scale imgAB (1, 1) ((0.5 : ℝ), (0.5 : ℝ)) ≠
      scale (mirrorX imgAB) (1, 1) (1 - (0.5 : ℝ), (0.5 : ℝ))) ∧
    (scale imgC (12, 8) ((1 : ℝ) / 6, (7 : ℝ) / 16) ≠
      scale (mirrorX imgC) (12, 8) (1 - (1 : ℝ) / 6, (7 : ℝ) / 16)) := by
  constructor
  · rw [scale_imgAB_at_boundary, scale_mirror_imgAB_at_boundary]
    exact cWhite_ne_cBlack
  · rw [scale_imgC_orig, scale_imgC_mirror]
    exact fun he => scale_imgC_mirror_ne he.symm

end OmniScale

namespace Settings

/-- A frontend setting: current value plus the declared inclusive range
(the `val`, `min`, `max` fields of `jg_setting_t`). -/
structure JgSetting where
  name : String
  val : ℤ
  min : ℤ
  max : ℤ

/-- One step of `SettingManager::read` for one setting: an empty entry is
skipped, a parsed integer is assigned only when it lies within the
setting's declared `[min, max]` range. -/
def settingRead (ini : String → Option ℤ) (s : JgSetting) : JgSetting :=
  match ini s.name with
  | none => s
  | some v => if s.min ≤ v ∧ v ≤ s.max then { s with val := v } else s

/-- `SettingManager::read` over a list of settings. -/
def settingsRead (ini : String → Option ℤ) (ss : List JgSetting) : List JgSetting :=
  ss.map (settingRead ini)

/-- The `fe_settings` table: name, default, min, max. -/
def fe_settings : List JgSetting :=
  [⟨"v_scale", 2, 1, 16⟩,
   ⟨"v_linearfilter", 1, 0, 1⟩,
   ⟨"v_aspect", 0, 0, 2⟩,
   ⟨"a_rsqual", 2, 0, 4⟩,
   ⟨"m_ffspeed", 2, 2, 8⟩,
   ⟨"m_hidecursor", 0, 0, 1⟩,
   ⟨"m_hidecrosshair", 0, 0, 1⟩]

theorem settingRead_min (ini : String → Option ℤ) (s : JgSetting) :
    (settingRead ini s).min = s.min := by
  unfold settingRead
  split
  · rfl
  · split <;> rfl

theorem settingRead_max (ini : String → Option ℤ) (s : JgSetting) :
    (settingRead ini s).max = s.max := by
  unfold settingRead
  split
  · rfl
  · split <;> rfl

/-- C10: a configuration value is assigned to a setting only when the
parsed integer lies within the declared `[min, max]` range; empty or
out-of-range entries leave the current value unchanged; hence a setting
whose value is within bounds stays within bounds after `read`, and in
particular every `fe_settings` entry is within its bounds after `read`
from any configuration. -/
theorem settingManager_read_bounds (ini : String → Option ℤ) :
    (∀ s : JgSetting, ini s.name = none → settingRead ini s = s) ∧
    (∀ (s : JgSetting) (v : ℤ), ini s.name = some v →
      ¬ (s.min ≤ v ∧ v ≤ s.max) → settingRead ini s = s) ∧
    (∀ (s : JgSetting) (v : ℤ), ini s.name = some v →
      s.min ≤ v → v ≤ s.max → (settingRead ini s).val = v) ∧
    (∀ s : JgSetting, s.min ≤ s.val → s.val ≤ s.max →
      s.min ≤ (settingRead ini s).val ∧ (settingRead ini s).val ≤ s.max) ∧
    (∀ s ∈ settingsRead ini fe_settings, s.min ≤ s.val ∧ s.val ≤ s.max) := by
  have hnone : ∀ s : JgSetting, ini s.name = none → settingRead ini s = s := by
    intro s h
    unfold settingRead
    rw [h]
  have hout : ∀ (s : JgSetting) (v : ℤ), ini s.name = some v →
      ¬ (s.min ≤ v ∧ v ≤ s.max) → settingRead ini s = s := by
    intro s v h hrange
    unfold settingRead
    rw [h]
    simp only [if_neg hrange]
  have hin : ∀ (s : JgSetting) (v : ℤ), ini s.name = some v →
      s.min ≤ v → v ≤ s.max → (settingRead ini s).val = v := by
    intro s v h h1 h2
    unfold settingRead
    rw [h]
    simp only [if_pos (And.intro h1 h2)]
  have hbound : ∀ s : JgSetting, s.min ≤ s.val → s.val ≤ s.max →
      s.min ≤ (settingRead ini s).val ∧ (settingRead ini s).val ≤ s.max := by
    intro s h1 h2
    unfold settingRead
    cases hi : ini s.name with
    | none => exact ⟨h1, h2⟩
    | some v =>
      by_cases hr : s.min ≤ v ∧ v ≤ s.max
      · simp only [if_pos hr]
        exact hr
      · simp only [if_neg hr]
        exact ⟨h1, h2⟩
  refine ⟨hnone, hout, hin, hbound, ?_⟩
  intro s hs
  unfold settingsRead fe_settings at hs
  simp only [List.map_cons, List.map_nil, List.mem_cons, List.not_mem_nil, or_false] at hs
  rcases hs with h | h | h | h | h | h | h <;>
    · subst h
      rw [settingRead_min, settingRead_max]
      exact hbound _ (by norm_num) (by norm_num)

theorem settingManager_read_bounds_witness :
    settingRead (fun _ => none) ⟨"v_scale", 2, 1, 16⟩ = ⟨"v_scale", 2, 1, 16⟩ ∧
    settingRead (fun _ => some 99) ⟨"v_scale", 2, 1, 16⟩ = ⟨"v_scale", 2, 1, 16⟩ ∧
    (settingRead (fun _ => some 8) ⟨"v_scale", 2, 1, 16⟩).val = 8 ∧
    (1 ≤ (settingRead (fun _ => some 99) ⟨"v_scale", 2, 1, 16⟩).val ∧
      (settingRead (fun _ => some 99) ⟨"v_scale", 2, 1, 16⟩).val ≤ 16) := by
  refine ⟨(settingManager_read_bounds (fun _ => none)).1 _ rfl,
    (settingManager_read_bounds (fun _ => some 99)).2.1 _ 99 rfl (by norm_num),
    (settingManager_read_bounds (fun _ => some 8)).2.2.1 _ 8 rfl (by norm_num) (by norm_num),
    (settingManager_read_bounds (fun _ => some 99)).2.2.2.1 _ (by norm_num) (by norm_num)⟩

end Settings

end
